import Mathlib

/-!
# Cloud-account resource of the Prisma Cloud Terraform provider

A shallow embedding of `prismacloud/resource_cloud_account.go`:

* `gcpCredentialsMatch`, `parseCloudAccount`, `saveCloudAccount`,
  `createCloudAccount`, `readCloudAccount`, `updateCloudAccount` and
  `deleteCloudAccountAction` are translated from the Go source;
* the Terraform `schema.ResourceData`, the `account` API client and the
  `encoding/json` calls are external to the file and are modelled here as far
  as the resource uses them; the block schemas carry the types, the `Required`
  flags and the `Default` values that the source declares.

Go strings are modelled by Lean strings, that is by valid Unicode text.
-/

namespace PrismaCloud

/-! ## `encoding/json`, as far as the credentials record needs it -/

/-- The record `account.GcpCredentials`: ten string fields. The Go field `Type`
is spelled `Typ` because `Type` is reserved. -/
structure GcpCredentials where
  Typ : String
  ProjectId : String
  PrivateKeyId : String
  PrivateKey : String
  ClientEmail : String
  ClientId : String
  AuthUri : String
  TokenUri : String
  ProviderCertUrl : String
  ClientCertUrl : String
  deriving DecidableEq, Repr

/-- The zero value of `account.GcpCredentials` (a Go `var creds`). -/
def GcpCredentials.zero : GcpCredentials :=
  ⟨"", "", "", "", "", "", "", "", "", ""⟩

/-- What a JSON text denotes. A number carries nothing here, since the
credentials record has no numeric field. -/
inductive Json where
  | null
  | str (s : List Char)
  | num
  | bool (b : Bool)
  | obj (ms : List (List Char × Json))
  | arr (xs : List Json)

/-- JSON insignificant whitespace: space, tab, carriage return, line feed. -/
def isWs (c : Char) : Bool :=
  c = ' ' || c = '\t' || c = '\r' || c = '\n'

/-- Drops leading JSON whitespace. -/
def skipWs : List Char → List Char
  | [] => []
  | c :: cs => if isWs c then skipWs cs else c :: cs

/-- Value of one hexadecimal digit (both cases are accepted, as in `getu4`). -/
def hexVal (c : Char) : Option Nat :=
  if 48 ≤ c.toNat ∧ c.toNat ≤ 57 then some (c.toNat - 48)
  else if 97 ≤ c.toNat ∧ c.toNat ≤ 102 then some (c.toNat - 87)
  else if 65 ≤ c.toNat ∧ c.toNat ≤ 70 then some (c.toNat - 55)
  else none

/-- The function `getu4`: the code unit written by four hexadecimal digits. -/
def getu4 (a b c d : Char) : Option Nat :=
  match hexVal a, hexVal b, hexVal c, hexVal d with
  | some x, some y, some z, some w => some (((x * 16 + y) * 16 + z) * 16 + w)
  | _, _, _, _ => none

/-- A UTF-16 surrogate code unit (`utf16.IsSurrogate`). -/
def isSurrogate (u : Nat) : Bool := 0xD800 ≤ u && u < 0xE000

/-- The function `utf16.DecodeRune`: a high surrogate followed by a low one gives
the supplementary code point, anything else the replacement character. -/
def decodeSurrogates (hi lo : Nat) : Nat :=
  if 0xD800 ≤ hi ∧ hi < 0xDC00 ∧ 0xDC00 ≤ lo ∧ lo < 0xE000 then
    (hi - 0xD800) * 1024 + (lo - 0xDC00) + 0x10000
  else 0xFFFD

/-- The character of a single-letter escape, as the scanner accepts them. -/
def unescape (e : Char) : Option Char :=
  if e = '"' then some '"'
  else if e = '\\' then some '\\'
  else if e = '/' then some '/'
  else if e = 'b' then some (Char.ofNat 8)
  else if e = 'f' then some (Char.ofNat 12)
  else if e = 'n' then some '\n'
  else if e = 'r' then some '\r'
  else if e = 't' then some '\t'
  else none

/-- The code unit of a `\uXXXX` escape standing at the head of the text, if one
stands there (the second `getu4` call of `unquote`). -/
def peekU4 : List Char → Option Nat
  | x :: y :: a :: b :: c :: d :: _ => if x = '\\' ∧ y = 'u' then getu4 a b c d else none
  | _ => none

/-- Prepends a decoded character to the result of parsing the rest of a string. -/
def consChar (c : Char) : Option (List Char × List Char) → Option (List Char × List Char)
  | some (s, rest) => some (c :: s, rest)
  | none => none

/-- Reads what follows a backslash inside a string literal: the character the
escape stands for and the rest of the text. A `\u` escape of a surrogate takes a
following low surrogate escape with it when the two form a pair, and otherwise
decodes to U+FFFD alone. Unknown escapes are syntax errors. -/
def readEscape : List Char → Option (Char × List Char)
  | [] => none
  | e :: rest =>
    if e = 'u' then
      match rest with
      | a :: b :: c :: d :: rest2 =>
        match getu4 a b c d with
        | none => none
        | some u =>
          if isSurrogate u then
            match peekU4 rest2 with
            | some u2 =>
              if decodeSurrogates u u2 = 0xFFFD then some (Char.ofNat 0xFFFD, rest2)
              else some (Char.ofNat (decodeSurrogates u u2), rest2.drop 6)
            | none => some (Char.ofNat 0xFFFD, rest2)
          else some (Char.ofNat u, rest2)
      | _ => none
    else
      match unescape e with
      | some ch => some (ch, rest)
      | none => none

/-- Reads the body of a string literal, the opening quote being consumed: the
decoded text and what follows the closing quote. Control characters are syntax
errors. The first argument bounds the number of characters read. -/
def parseStrAux : Nat → List Char → Option (List Char × List Char)
  | 0, _ => none
  | _ + 1, [] => none
  | n + 1, c :: rest =>
    if c = '"' then some ([], rest)
    else if c = '\\' then
      match readEscape rest with
      | some (ch, rest1) => consChar ch (parseStrAux n rest1)
      | none => none
    else if c.toNat < 0x20 then none
    else consChar c (parseStrAux n rest)

/-- Reads the body of a string literal; every step takes at least one character,
so the length of the text bounds the number of steps
(`parseStr_of_parseStrAux`). -/
def parseStr (cs : List Char) : Option (List Char × List Char) :=
  parseStrAux cs.length cs

/-- A decimal digit. -/
def isDigit (c : Char) : Bool := 48 ≤ c.toNat && c.toNat ≤ 57

/-- Reads one or more digits. -/
def parseDigits : List Char → Option (List Char)
  | c :: cs => if isDigit c then some (cs.dropWhile isDigit) else none
  | [] => none

/-- Reads the integer part of a number: `0`, or a non-zero digit and more digits. -/
def parseInt : List Char → Option (List Char)
  | c :: cs =>
    if c = '0' then some cs
    else if isDigit c then some (cs.dropWhile isDigit)
    else none
  | [] => none

/-- Reads the optional fraction of a number. -/
def parseFrac : List Char → Option (List Char)
  | '.' :: cs => parseDigits cs
  | cs => some cs

/-- Reads the optional exponent of a number. -/
def parseExp : List Char → Option (List Char)
  | c :: cs =>
    if c = 'e' ∨ c = 'E' then
      match cs with
      | s :: cs1 => if s = '+' ∨ s = '-' then parseDigits cs1 else parseDigits cs
      | [] => none
    else some (c :: cs)
  | [] => some []

/-- Reads a JSON number and returns what follows it. -/
def parseNum : List Char → Option (List Char)
  | '-' :: cs => ((parseInt cs).bind parseFrac).bind parseExp
  | cs => ((parseInt cs).bind parseFrac).bind parseExp

mutual
/-- Reads one JSON value, leading whitespace included. The first argument bounds
the number of nested calls; `parse` starts it above the length of the text, and
`parse_of_parseValue` shows that no larger bound finds more. -/
def parseValue : Nat → List Char → Option (Json × List Char)
  | 0, _ => none
  | n + 1, cs =>
    match skipWs cs with
    | [] => none
    | c :: r =>
      if c = '"' then
        match parseStr r with
        | some (s, r1) => some (Json.str s, r1)
        | none => none
      else if c = '{' then
        match skipWs r with
        | '}' :: r1 => some (Json.obj [], r1)
        | _ =>
          match parseMembers n r with
          | some (ms, r1) => some (Json.obj ms, r1)
          | none => none
      else if c = '[' then
        match skipWs r with
        | ']' :: r1 => some (Json.arr [], r1)
        | _ =>
          match parseElems n r with
          | some (xs, r1) => some (Json.arr xs, r1)
          | none => none
      else if c = 't' then
        match r with
        | 'r' :: 'u' :: 'e' :: r1 => some (Json.bool true, r1)
        | _ => none
      else if c = 'f' then
        match r with
        | 'a' :: 'l' :: 's' :: 'e' :: r1 => some (Json.bool false, r1)
        | _ => none
      else if c = 'n' then
        match r with
        | 'u' :: 'l' :: 'l' :: r1 => some (Json.null, r1)
        | _ => none
      else
        match parseNum (c :: r) with
        | some r1 => some (Json.num, r1)
        | none => none
/-- Reads the members of an object up to and including the closing brace. -/
def parseMembers : Nat → List Char → Option (List (List Char × Json) × List Char)
  | 0, _ => none
  | n + 1, cs =>
    match skipWs cs with
    | '"' :: r =>
      match parseStr r with
      | none => none
      | some (k, r1) =>
        match skipWs r1 with
        | ':' :: r2 =>
          match parseValue n r2 with
          | none => none
          | some (v, r3) =>
            match skipWs r3 with
            | ',' :: r4 =>
              match parseMembers n r4 with
              | some (ms, r5) => some ((k, v) :: ms, r5)
              | none => none
            | '}' :: r4 => some ([(k, v)], r4)
            | _ => none
        | _ => none
    | _ => none
/-- Reads the elements of an array up to and including the closing bracket. -/
def parseElems : Nat → List Char → Option (List Json × List Char)
  | 0, _ => none
  | n + 1, cs =>
    match parseValue n cs with
    | none => none
    | some (v, r1) =>
      match skipWs r1 with
      | ',' :: r2 =>
        match parseElems n r2 with
        | some (xs, r3) => some (v :: xs, r3)
        | none => none
      | ']' :: r2 => some ([v], r2)
      | _ => none
end

/-- The syntax check and parse of a whole text: one value, whitespace around it,
nothing else. `none` is Go's `SyntaxError`. -/
def parse (cs : List Char) : Option Json :=
  match parseValue (cs.length + 1) cs with
  | some (v, rest) => if skipWs rest = [] then some v else none
  | none => none

/-- Case folding of one character of an object key, as `json` matches keys with
field names: the upper-case ASCII letters, the Kelvin sign and the long s fold to
their lower-case ASCII letter. -/
def foldRune (c : Char) : Char :=
  if 65 ≤ c.toNat ∧ c.toNat ≤ 90 then Char.ofNat (c.toNat + 32)
  else if c.toNat = 0x212A then 'k'
  else if c.toNat = 0x17F then 's'
  else c

/-- The JSON names of the ten fields of `account.GcpCredentials`, in field order. -/
def credentialNames : List String :=
  ["type", "project_id", "private_key_id", "private_key", "client_email", "client_id",
   "auth_uri", "token_uri", "auth_provider_x509_cert_url", "client_x509_cert_url"]

/-- The position in `credentialNames` of the field an object key selects: the
field whose name equals the key, case folded. Unknown keys select nothing. -/
def fieldIndex (key : List Char) : Option Nat :=
  match credentialNames.indexOf (String.mk (key.map foldRune)) with
  | 10 => none
  | i => some i

/-- Stores a string into the field at a position of `credentialNames`. -/
def setField (dst : GcpCredentials) (i : Nat) (v : String) : GcpCredentials :=
  match i with
  | 0 => { dst with Typ := v }
  | 1 => { dst with ProjectId := v }
  | 2 => { dst with PrivateKeyId := v }
  | 3 => { dst with PrivateKey := v }
  | 4 => { dst with ClientEmail := v }
  | 5 => { dst with ClientId := v }
  | 6 => { dst with AuthUri := v }
  | 7 => { dst with TokenUri := v }
  | 8 => { dst with ProviderCertUrl := v }
  | 9 => { dst with ClientCertUrl := v }
  | _ => dst

/-- The two errors of `json.Unmarshal`. -/
inductive UnmarshalError where
  | SyntaxError
  | UnmarshalTypeError
  deriving DecidableEq, Repr

/-- Decodes one object member into the record: a string is stored into the field
the key selects, `null` leaves the field alone, any other value for a known field
is a type error (the first one is the one reported, decoding goes on); members
with unknown keys are skipped. -/
def decodeMember (acc : GcpCredentials × Option UnmarshalError) (m : List Char × Json) :
    GcpCredentials × Option UnmarshalError :=
  match fieldIndex m.1 with
  | none => acc
  | some i =>
    match m.2 with
    | Json.str s => (setField acc.1 i (String.mk s), acc.2)
    | Json.null => acc
    | _ =>
      match acc.2 with
      | some e => (acc.1, some e)
      | none => (acc.1, some UnmarshalError.UnmarshalTypeError)

/-- The call `json.Unmarshal([]byte(text), &dst)`: the record afterwards and the
error. A text that is not valid JSON leaves the record untouched. -/
def Unmarshal (text : String) (dst : GcpCredentials) : GcpCredentials × Option UnmarshalError :=
  match parse text.data with
  | none => (dst, some UnmarshalError.SyntaxError)
  | some (Json.obj ms) => ms.foldl decodeMember (dst, none)
  | some Json.null => (dst, none)
  | some _ => (dst, some UnmarshalError.UnmarshalTypeError)

/-- The lower-case hexadecimal digit of a number below sixteen. -/
def hexDigit (n : Nat) : Char :=
  if n < 10 then Char.ofNat (48 + n) else Char.ofNat (87 + n)

/-- How `json.Marshal` writes one character of a string (HTML escaping on). -/
def escapeRune (c : Char) : List Char :=
  if c = '"' then ['\\', '"']
  else if c = '\\' then ['\\', '\\']
  else if c = '\n' then ['\\', 'n']
  else if c = '\r' then ['\\', 'r']
  else if c = '\t' then ['\\', 't']
  else if c.toNat < 0x20 ∨ c = '<' ∨ c = '>' ∨ c = '&' then
    ['\\', 'u', '0', '0', hexDigit (c.toNat / 16), hexDigit (c.toNat % 16)]
  else if c.toNat = 0x2028 then ['\\', 'u', '2', '0', '2', '8']
  else if c.toNat = 0x2029 then ['\\', 'u', '2', '0', '2', '9']
  else [c]

/-- The body of a string literal: every character escaped as `json.Marshal` does. -/
def escapeString : List Char → List Char
  | [] => []
  | c :: cs => escapeRune c ++ escapeString cs

/-- A string literal with its quotes. -/
def encodeString (s : List Char) : List Char :=
  '"' :: (escapeString s ++ ['"'])

/-- The text of the members of an object, separated by commas, each written as
`"key":"value"`. -/
def encodeMembers : List (String × String) → List Char
  | [] => []
  | [(k, v)] => encodeString k.data ++ ':' :: encodeString v.data
  | (k, v) :: m :: ms =>
    encodeString k.data ++ ':' :: (encodeString v.data ++ ',' :: encodeMembers (m :: ms))

/-- The members `json.Marshal` writes for a credentials record. -/
def credentialMembers (c : GcpCredentials) : List (String × String) :=
  [("type", c.Typ), ("project_id", c.ProjectId), ("private_key_id", c.PrivateKeyId),
   ("private_key", c.PrivateKey), ("client_email", c.ClientEmail), ("client_id", c.ClientId),
   ("auth_uri", c.AuthUri), ("token_uri", c.TokenUri),
   ("auth_provider_x509_cert_url", c.ProviderCertUrl),
   ("client_x509_cert_url", c.ClientCertUrl)]

/-- The call `json.Marshal(creds)` followed by `string(b)`; it cannot fail on a
record of strings. -/
def Marshal (c : GcpCredentials) : String :=
  String.mk ('{' :: (encodeMembers (credentialMembers c) ++ ['}']))

/-- One member of a hand-written object text: a key and a string value, with the
whitespace before the key, before the colon, before the value and after it. -/
structure SpacedMember where
  key : String
  value : String
  w1 : List Char
  w2 : List Char
  w3 : List Char
  w4 : List Char

/-- The four gaps of a member hold JSON whitespace only. -/
def SpacedMember.wsOk (m : SpacedMember) : Bool :=
  m.w1.all isWs && m.w2.all isWs && m.w3.all isWs && m.w4.all isWs

/-- The text of one member. -/
def SpacedMember.text (m : SpacedMember) : List Char :=
  m.w1 ++ (encodeString m.key.data ++
    (m.w2 ++ ':' :: (m.w3 ++ (encodeString m.value.data ++ m.w4))))

/-- The text of the members of an object, separated by commas. -/
def spacedMembers : List SpacedMember → List Char
  | [] => []
  | [m] => m.text
  | m :: m1 :: ms => m.text ++ ',' :: spacedMembers (m1 :: ms)

/-- The text of an object with the given members, in the given order, with
whitespace before and after the braces. -/
def objectText (lead : List Char) (ms : List SpacedMember) (trail : List Char) : String :=
  String.mk (lead ++ '{' :: (spacedMembers ms ++ '}' :: trail))

/-! ## The account records of the API client -/

/-- The record `account.Aws`. -/
structure Aws where
  AccountId : String
  Enabled : Bool
  ExternalId : String
  GroupIds : List String
  Name : String
  RoleArn : String
  ProtectionMode : String
  AccountType : String
  deriving DecidableEq, Repr

/-- The record `account.CloudAccount`, the common part of Azure and GCP accounts. -/
structure CloudAccount where
  AccountId : String
  Enabled : Bool
  GroupIds : List String
  Name : String
  ProtectionMode : String
  AccountType : String
  deriving DecidableEq, Repr

/-- The record `account.Azure`. -/
structure Azure where
  Account : CloudAccount
  ClientId : String
  Key : String
  MonitorFlowLogs : Bool
  TenantId : String
  ServicePrincipalId : String
  deriving DecidableEq, Repr

/-- The record `account.Gcp`. -/
structure Gcp where
  Account : CloudAccount
  CompressionEnabled : Bool
  DataflowEnabledProject : String
  FlowLogStorageBucket : String
  Credentials : GcpCredentials
  deriving DecidableEq, Repr

/-- The record `account.Alibaba`. -/
structure Alibaba where
  AccountId : String
  GroupIds : List String
  Name : String
  RamArn : String
  Enabled : Bool
  deriving DecidableEq, Repr

/-- An account object as the code passes it around in an `interface{}`: one of
the four records, or `nil`. -/
inductive Obj where
  | nil
  | aws (v : Aws)
  | azure (v : Azure)
  | gcp (v : Gcp)
  | alibaba (v : Alibaba)
  deriving DecidableEq, Repr

/-- The constant `account.TypeAws`. -/
def TypeAws : String := "aws"

/-- The constant `account.TypeAzure`. -/
def TypeAzure : String := "azure"

/-- The constant `account.TypeGcp`. -/
def TypeGcp : String := "gcp"

/-- The constant `account.TypeAlibaba`. -/
def TypeAlibaba : String := "alibaba"

/-! ## The configuration tree (`schema.ResourceData`) -/

/-- A Go value held in a block's `map[string]interface{}`. -/
inductive Value where
  | str (s : String)
  | bool (b : Bool)
  | strings (xs : List String)
  | list (xs : List Value)

/-- A block: string keys to values, a Go `map[string]interface{}`. -/
abbrev FieldMap := List (String × Value)

/-- The value types the block schemas of this resource use. -/
inductive ValueType where
  | TypeString
  | TypeBool
  | TypeListOfString
  deriving DecidableEq, Repr

/-- One field of a block schema, as the source declares it: its type, whether it
is `Required` (otherwise it is `Optional`) and its `Default`, when it has one.
The other entries of the source (`Description`, `Sensitive`, `ForceNew`,
`DiffSuppressFunc`) play no part in `Get` and `Set`. -/
structure FieldSchema where
  Typ : ValueType
  Required : Bool
  Default : Option Value

/-- A field declared `Required: true`. -/
def FieldSchema.required (t : ValueType) : FieldSchema := ⟨t, true, none⟩

/-- A field declared `Optional: true` without a `Default`. -/
def FieldSchema.optional (t : ValueType) : FieldSchema := ⟨t, false, none⟩

/-- A field declared `Optional: true` with a `Default`. -/
def FieldSchema.optionalDefault (t : ValueType) (v : Value) : FieldSchema := ⟨t, false, some v⟩

/-- A block schema: the keys with their declarations. -/
abbrev BlockSchema := List (String × FieldSchema)

/-- Schema of the `aws` block (source lines 45 to 93). -/
def awsSchema : BlockSchema :=
  [("account_id", FieldSchema.required ValueType.TypeString),
   ("enabled", FieldSchema.optionalDefault ValueType.TypeBool (Value.bool true)),
   ("external_id", FieldSchema.required ValueType.TypeString),
   ("group_ids", FieldSchema.required ValueType.TypeListOfString),
   ("name", FieldSchema.required ValueType.TypeString),
   ("role_arn", FieldSchema.required ValueType.TypeString),
   ("account_type", FieldSchema.optionalDefault ValueType.TypeString (Value.str "account")),
   ("protection_mode", FieldSchema.optionalDefault ValueType.TypeString (Value.str "MONITOR"))]

/-- Schema of the `azure` block (source lines 109 to 173). -/
def azureSchema : BlockSchema :=
  [("account_id", FieldSchema.required ValueType.TypeString),
   ("enabled", FieldSchema.optionalDefault ValueType.TypeBool (Value.bool true)),
   ("group_ids", FieldSchema.required ValueType.TypeListOfString),
   ("name", FieldSchema.required ValueType.TypeString),
   ("client_id", FieldSchema.required ValueType.TypeString),
   ("key", FieldSchema.required ValueType.TypeString),
   ("monitor_flow_logs", FieldSchema.optional ValueType.TypeBool),
   ("tenant_id", FieldSchema.required ValueType.TypeString),
   ("service_principal_id", FieldSchema.required ValueType.TypeString),
   ("account_type", FieldSchema.optionalDefault ValueType.TypeString (Value.str "account")),
   ("protection_mode", FieldSchema.optionalDefault ValueType.TypeString (Value.str "MONITOR"))]

/-- Schema of the `gcp` block (source lines 189 to 250). -/
def gcpSchema : BlockSchema :=
  [("account_id", FieldSchema.required ValueType.TypeString),
   ("enabled", FieldSchema.optionalDefault ValueType.TypeBool (Value.bool true)),
   ("group_ids", FieldSchema.required ValueType.TypeListOfString),
   ("name", FieldSchema.required ValueType.TypeString),
   ("compression_enabled", FieldSchema.optional ValueType.TypeBool),
   ("dataflow_enabled_project", FieldSchema.optional ValueType.TypeString),
   ("flow_log_storage_bucket", FieldSchema.optional ValueType.TypeString),
   ("credentials_json", FieldSchema.required ValueType.TypeString),
   ("account_type", FieldSchema.optionalDefault ValueType.TypeString (Value.str "account")),
   ("protection_mode", FieldSchema.optionalDefault ValueType.TypeString (Value.str "MONITOR"))]

/-- Schema of the `alibaba` block (source lines 266 to 296). -/
def alibabaSchema : BlockSchema :=
  [("account_id", FieldSchema.required ValueType.TypeString),
   ("group_ids", FieldSchema.required ValueType.TypeListOfString),
   ("name", FieldSchema.required ValueType.TypeString),
   ("ram_arn", FieldSchema.required ValueType.TypeString),
   ("enabled", FieldSchema.optionalDefault ValueType.TypeBool (Value.bool true))]

/-- The block schema declared under a top-level key; other keys hold no block.
`MaxItems` and `ConflictsWith` are checked by Terraform on the configuration and
not by the functions of this file. -/
def blockSchema (key : String) : Option BlockSchema :=
  if key = TypeAws then some awsSchema
  else if key = TypeAzure then some azureSchema
  else if key = TypeGcp then some gcpSchema
  else if key = TypeAlibaba then some alibabaSchema
  else none

/-- The zero value of a type. -/
def zeroValue : ValueType → Value
  | ValueType.TypeString => Value.str ""
  | ValueType.TypeBool => Value.bool false
  | ValueType.TypeListOfString => Value.list []

/-- The value of a field that a block leaves out: the `Default` of the schema when
one is declared, the zero value of the type otherwise. -/
def FieldSchema.defaultValue (f : FieldSchema) : Value :=
  match f.Default with
  | some v => v
  | none => zeroValue f.Typ

/-- A value holds a Go string. -/
def Value.isStr : Value → Bool
  | Value.str _ => true
  | _ => false

/-- The value as `ResourceData` holds it for a field of the given type, when it
has that type: a list of strings is accepted as `[]string` and as `[]interface{}`
of strings and is held as the latter. -/
def coerce : ValueType → Value → Option Value
  | ValueType.TypeString, Value.str s => some (Value.str s)
  | ValueType.TypeBool, Value.bool b => some (Value.bool b)
  | ValueType.TypeListOfString, Value.strings xs => some (Value.list (xs.map Value.str))
  | ValueType.TypeListOfString, Value.list xs =>
    if xs.all Value.isStr then some (Value.list xs) else none
  | _, _ => none

/-- What `Get` returns for one field of a block: the held value when the block
holds one of the type of the field; the `Default` of the schema, or the zero
value when the schema has none, for a field the block leaves out. -/
def readField (m : FieldMap) (f : String × FieldSchema) : String × Value :=
  match m.lookup f.1 with
  | some v =>
    match coerce f.2.Typ v with
    | some v1 => (f.1, v1)
    | none => (f.1, f.2.defaultValue)
  | none => (f.1, f.2.defaultValue)

/-- What `Get` returns for a block: every key of the schema, with a value of its type. -/
def readBlock (s : BlockSchema) (m : FieldMap) : FieldMap :=
  s.map (readField m)

/-- What `Set` writes for one field of a block: the given value, and the zero value
of the type for a key the given map leaves out (a `Default` plays no part in
`Set`). -/
def storeField (m : FieldMap) (f : String × FieldSchema) : String × Value :=
  match m.lookup f.1 with
  | some v =>
    match coerce f.2.Typ v with
    | some v1 => (f.1, v1)
    | none => (f.1, zeroValue f.2.Typ)
  | none => (f.1, zeroValue f.2.Typ)

/-- What `Set` writes for a block: every key of the schema. -/
def storeBlock (s : BlockSchema) (m : FieldMap) : FieldMap :=
  s.map (storeField m)

/-- Whether `Set` accepts a block: every key it holds is in the schema and
its value has the type of the key. -/
def blockOk (s : BlockSchema) (m : FieldMap) : Bool :=
  m.all fun kv =>
    match s.lookup kv.1 with
    | some f => (coerce f.Typ kv.2).isSome
    | none => false

/-- The state of one resource instance as the provider sees it through
`*schema.ResourceData`: the stored identity, the four block lists and the two
resource-level flags. -/
structure ResourceData where
  id : String
  aws : List FieldMap
  azure : List FieldMap
  gcp : List FieldMap
  alibaba : List FieldMap
  disable_on_destroy : Bool
  update_on_create : Bool

/-- The method `d.Id()`. -/
def ResourceData.Id (d : ResourceData) : String := d.id

/-- The method `d.SetId(v)`. -/
def ResourceData.SetId (d : ResourceData) (v : String) : ResourceData :=
  { d with id := v }

/-- The block list held under a top-level key, `d.Get(key)` for the four block
keys; empty for any other key. -/
def ResourceData.GetList (d : ResourceData) (key : String) : List FieldMap :=
  if key = TypeAws then d.aws
  else if key = TypeAzure then d.azure
  else if key = TypeGcp then d.gcp
  else if key = TypeAlibaba then d.alibaba
  else []

/-- Replaces the block list held under one of the four block keys. -/
def ResourceData.putList (d : ResourceData) (key : String) (v : List FieldMap) : ResourceData :=
  if key = TypeAws then { d with aws := v }
  else if key = TypeAzure then { d with azure := v }
  else if key = TypeGcp then { d with gcp := v }
  else if key = TypeAlibaba then { d with alibaba := v }
  else d

/-- The method `d.Set(key, value)` for a block-list key: `nil` (here `none`)
empties the list; a list of blocks is stored, each block written through the
schema, when the schema accepts every block. The result carries `true` when
`Set` returns an error, and then the tree is as before. -/
def ResourceData.Set (d : ResourceData) (key : String) (value : Option (List FieldMap)) :
    ResourceData × Bool :=
  match blockSchema key with
  | none => (d, true)
  | some s =>
    match value with
    | none => (d.putList key [], false)
    | some blocks =>
      if blocks.all (blockOk s) then (d.putList key (blocks.map (storeBlock s)), false)
      else (d, true)

/-- Modelled from the spec: `ResourceDataInterfaceMap` is declared elsewhere in the
package. It returns the single block of a group ("each at most one populated
list-of-one-element") as a map, and the empty map when the group is empty. -/
def ResourceDataInterfaceMap (d : ResourceData) (key : String) : FieldMap :=
  match blockSchema key, d.GetList key with
  | some s, m :: _ => readBlock s m
  | _, _ => []

/-- The string `Get` returns for a string field of a block, the last argument
being what the schema gives for a field the block leaves out. -/
def blockString (m : FieldMap) (key : String) (dflt : String) : String :=
  match m.lookup key with
  | some (Value.str s) => s
  | _ => dflt

/-- The boolean `Get` returns for a boolean field of a block, the last argument
being what the schema gives for a field the block leaves out. -/
def blockBool (m : FieldMap) (key : String) (dflt : Bool) : Bool :=
  match m.lookup key with
  | some (Value.bool b) => b
  | _ => dflt

/-- The type assertion `v.(string)` on an element of a list; `none` is the panic. -/
def Value.asString : Value → Option String
  | Value.str s => some s
  | _ => none

/-- Modelled from the spec: `ListToStringSlice` is declared elsewhere in the
package. It turns the `[]interface{}` of a list field into the ordered sequence
of strings it holds; `none` is the panic of a failed type assertion. -/
def ListToStringSlice : List Value → Option (List String)
  | [] => some []
  | v :: vs =>
    match v.asString, ListToStringSlice vs with
    | some s, some ss => some (s :: ss)
    | _, _ => none

/-- The strings `Get` returns for a list field of a block; no list field of the
source has a `Default`. -/
def blockStrings (m : FieldMap) (key : String) : List String :=
  match m.lookup key with
  | some (Value.strings xs) => xs
  | some (Value.list xs) => if xs.all Value.isStr then xs.filterMap Value.asString else []
  | _ => []

/-- The expression `x[key].(string)`; `none` is the panic of a failed assertion. -/
def getString (x : FieldMap) (key : String) : Option String :=
  match x.lookup key with
  | some (Value.str s) => some s
  | _ => none

/-- The expression `x[key].(bool)`; `none` is the panic of a failed assertion. -/
def getBool (x : FieldMap) (key : String) : Option Bool :=
  match x.lookup key with
  | some (Value.bool b) => some b
  | _ => none

/-- The expression `ListToStringSlice(x[key].([]interface{}))`. -/
def getStrings (x : FieldMap) (key : String) : Option (List String) :=
  match x.lookup key with
  | some (Value.list xs) => ListToStringSlice xs
  | _ => none

/-! ## The functions of `resource_cloud_account.go` -/

/-- The function `gcpCredentialsMatch` (source lines 317 to 341), the
`DiffSuppressFunc` of `credentials_json`. The arguments `k` and `d` are unused,
as in the source. -/
def gcpCredentialsMatch (_k old new : String) (_d : ResourceData) : Bool :=
  match Unmarshal old GcpCredentials.zero with
  | (_, some _) => false
  | (prev, none) =>
    match Unmarshal new GcpCredentials.zero with
    | (_, some _) => false
    | (cur, none) =>
      (prev.Typ == cur.Typ &&
        prev.ProjectId == cur.ProjectId &&
        prev.PrivateKeyId == cur.PrivateKeyId &&
        prev.PrivateKey == cur.PrivateKey &&
        prev.ClientEmail == cur.ClientEmail &&
        prev.ClientId == cur.ClientId &&
        prev.AuthUri == cur.AuthUri &&
        prev.TokenUri == cur.TokenUri &&
        prev.ProviderCertUrl == cur.ProviderCertUrl &&
        prev.ClientCertUrl == cur.ClientCertUrl)

/-- The function `parseCloudAccount` (source lines 343 to 400): the cloud type,
the name and the account object of the first non-empty block, in the order AWS,
Azure, GCP, Alibaba; `("", "", nil)` when all four are empty. The outer `none`
is the panic of a failed type assertion. -/
def parseCloudAccount (d : ResourceData) : Option (String × String × Obj) :=
  let x := ResourceDataInterfaceMap d TypeAws
  if x.length ≠ 0 then do
    let name ← getString x "name"
    let accountId ← getString x "account_id"
    let enabled ← getBool x "enabled"
    let externalId ← getString x "external_id"
    let groupIds ← getStrings x "group_ids"
    let roleArn ← getString x "role_arn"
    let protectionMode ← getString x "protection_mode"
    let accountType ← getString x "account_type"
    pure (TypeAws, name, Obj.aws {
      AccountId := accountId
      Enabled := enabled
      ExternalId := externalId
      GroupIds := groupIds
      Name := name
      RoleArn := roleArn
      ProtectionMode := protectionMode
      AccountType := accountType })
  else
    let x := ResourceDataInterfaceMap d TypeAzure
    if x.length ≠ 0 then do
      let name ← getString x "name"
      let accountId ← getString x "account_id"
      let enabled ← getBool x "enabled"
      let groupIds ← getStrings x "group_ids"
      let protectionMode ← getString x "protection_mode"
      let accountType ← getString x "account_type"
      let clientId ← getString x "client_id"
      let key ← getString x "key"
      let monitorFlowLogs ← getBool x "monitor_flow_logs"
      let tenantId ← getString x "tenant_id"
      let servicePrincipalId ← getString x "service_principal_id"
      pure (TypeAzure, name, Obj.azure {
        Account := {
          AccountId := accountId
          Enabled := enabled
          GroupIds := groupIds
          Name := name
          ProtectionMode := protectionMode
          AccountType := accountType }
        ClientId := clientId
        Key := key
        MonitorFlowLogs := monitorFlowLogs
        TenantId := tenantId
        ServicePrincipalId := servicePrincipalId })
    else
      let x := ResourceDataInterfaceMap d TypeGcp
      if x.length ≠ 0 then do
        let credentialsJson ← getString x "credentials_json"
        let creds := (Unmarshal credentialsJson GcpCredentials.zero).1
        let name ← getString x "name"
        let accountId ← getString x "account_id"
        let enabled ← getBool x "enabled"
        let groupIds ← getStrings x "group_ids"
        let protectionMode ← getString x "protection_mode"
        let accountType ← getString x "account_type"
        let compressionEnabled ← getBool x "compression_enabled"
        let dataflowEnabledProject ← getString x "dataflow_enabled_project"
        let flowLogStorageBucket ← getString x "flow_log_storage_bucket"
        pure (TypeGcp, name, Obj.gcp {
          Account := {
            AccountId := accountId
            Enabled := enabled
            GroupIds := groupIds
            Name := name
            ProtectionMode := protectionMode
            AccountType := accountType }
          CompressionEnabled := compressionEnabled
          DataflowEnabledProject := dataflowEnabledProject
          FlowLogStorageBucket := flowLogStorageBucket
          Credentials := creds })
      else
        let x := ResourceDataInterfaceMap d TypeAlibaba
        if x.length ≠ 0 then do
          let name ← getString x "name"
          let accountId ← getString x "account_id"
          let groupIds ← getStrings x "group_ids"
          let ramArn ← getString x "ram_arn"
          let enabled ← getBool x "enabled"
          pure (TypeAlibaba, name, Obj.alibaba {
            AccountId := accountId
            GroupIds := groupIds
            Name := name
            RamArn := ramArn
            Enabled := enabled })
        else
          some ("", "", Obj.nil)

/-- The AWS record that holds the field values of a block, with the `Default`
of the schema for `enabled`, `account_type` and `protection_mode` when the block
leaves them out. -/
def awsOfBlock (m : FieldMap) : Aws :=
  { AccountId := blockString m "account_id" ""
    Enabled := blockBool m "enabled" true
    ExternalId := blockString m "external_id" ""
    GroupIds := blockStrings m "group_ids"
    Name := blockString m "name" ""
    RoleArn := blockString m "role_arn" ""
    ProtectionMode := blockString m "protection_mode" "MONITOR"
    AccountType := blockString m "account_type" "account" }

/-- The Azure record that holds the field values of a block, with the `Default`
of the schema for `enabled`, `account_type` and `protection_mode` when the block
leaves them out. -/
def azureOfBlock (m : FieldMap) : Azure :=
  { Account := {
      AccountId := blockString m "account_id" ""
      Enabled := blockBool m "enabled" true
      GroupIds := blockStrings m "group_ids"
      Name := blockString m "name" ""
      ProtectionMode := blockString m "protection_mode" "MONITOR"
      AccountType := blockString m "account_type" "account" }
    ClientId := blockString m "client_id" ""
    Key := blockString m "key" ""
    MonitorFlowLogs := blockBool m "monitor_flow_logs" false
    TenantId := blockString m "tenant_id" ""
    ServicePrincipalId := blockString m "service_principal_id" "" }

/-- The GCP record that holds the field values of a block, with the `Default` of
the schema for `enabled`, `account_type` and `protection_mode` when the block
leaves them out, the credentials being what `json.Unmarshal` makes of the
`credentials_json` text. -/
def gcpOfBlock (m : FieldMap) : Gcp :=
  { Account := {
      AccountId := blockString m "account_id" ""
      Enabled := blockBool m "enabled" true
      GroupIds := blockStrings m "group_ids"
      Name := blockString m "name" ""
      ProtectionMode := blockString m "protection_mode" "MONITOR"
      AccountType := blockString m "account_type" "account" }
    CompressionEnabled := blockBool m "compression_enabled" false
    DataflowEnabledProject := blockString m "dataflow_enabled_project" ""
    FlowLogStorageBucket := blockString m "flow_log_storage_bucket" ""
    Credentials := (Unmarshal (blockString m "credentials_json" "") GcpCredentials.zero).1 }

/-- The Alibaba record that holds the field values of a block, with the `Default`
of the schema for `enabled` when the block leaves it out. -/
def alibabaOfBlock (m : FieldMap) : Alibaba :=
  { AccountId := blockString m "account_id" ""
    GroupIds := blockStrings m "group_ids"
    Name := blockString m "name" ""
    RamArn := blockString m "ram_arn" ""
    Enabled := blockBool m "enabled" true }

/-- The map `val` that the type switch of `saveCloudAccount` builds (source lines
405 to 453); for `nil` the switch matches no case and `val` stays the nil map. -/
def saveCloudAccountVal : Obj → FieldMap
  | Obj.aws v =>
    [("account_id", Value.str v.AccountId),
     ("enabled", Value.bool v.Enabled),
     ("external_id", Value.str v.ExternalId),
     ("group_ids", Value.strings v.GroupIds),
     ("name", Value.str v.Name),
     ("role_arn", Value.str v.RoleArn),
     ("protection_mode", Value.str v.ProtectionMode),
     ("account_type", Value.str v.AccountType)]
  | Obj.azure v =>
    [("account_id", Value.str v.Account.AccountId),
     ("enabled", Value.bool v.Account.Enabled),
     ("group_ids", Value.strings v.Account.GroupIds),
     ("name", Value.str v.Account.Name),
     ("client_id", Value.str v.ClientId),
     ("key", Value.str v.Key),
     ("monitor_flow_logs", Value.bool v.MonitorFlowLogs),
     ("tenant_id", Value.str v.TenantId),
     ("service_principal_id", Value.str v.ServicePrincipalId),
     ("protection_mode", Value.str v.Account.ProtectionMode),
     ("account_type", Value.str v.Account.AccountType)]
  | Obj.gcp v =>
    [("account_id", Value.str v.Account.AccountId),
     ("enabled", Value.bool v.Account.Enabled),
     ("group_ids", Value.strings v.Account.GroupIds),
     ("name", Value.str v.Account.Name),
     ("compression_enabled", Value.bool v.CompressionEnabled),
     ("dataflow_enabled_project", Value.str v.DataflowEnabledProject),
     ("flow_log_storage_bucket", Value.str v.FlowLogStorageBucket),
     ("credentials_json", Value.str (Marshal v.Credentials)),
     ("protection_mode", Value.str v.Account.ProtectionMode),
     ("account_type", Value.str v.Account.AccountType)]
  | Obj.alibaba v =>
    [("account_id", Value.str v.AccountId),
     ("group_ids", Value.strings v.GroupIds),
     ("name", Value.str v.Name),
     ("ram_arn", Value.str v.RamArn),
     ("enabled", Value.bool v.Enabled)]
  | Obj.nil => []

/-- The function `saveCloudAccount` (source lines 402 to 465): the loop over the
four block keys sets every key other than `dest` to `nil` and `dest` to the
one-element list holding `val`. An error of `Set` is only logged. -/
def saveCloudAccount (d : ResourceData) (dest : String) (obj : Obj) : ResourceData :=
  let val := saveCloudAccountVal obj
  [TypeAws, TypeAzure, TypeGcp, TypeAlibaba].foldl
    (fun d key =>
      if key ≠ dest then (d.Set key none).1
      else (d.Set key (some [val])).1)
    d

/-! ## The API client and the lifecycle functions -/

/-- An `error` value of the client: the two sentinel errors the resource compares
against, and any other error. -/
inductive Error where
  | DuplicateCloudAccountError
  | ObjectNotFoundError
  | other (msg : String)
  deriving DecidableEq, Repr

/-- A call to the external API, as recorded in the call log. -/
inductive Call where
  | Create (obj : Obj)
  | Update (obj : Obj)
  | Identify (cloudType name : String)
  | Get (cloudType id : String)
  | Delete (cloudType id : String)
  | Disable (cloudType id : String)
  deriving DecidableEq, Repr

/-- The external API behind `*pc.Client`: each call answers from the state of the
platform and may change it. Nothing is assumed about the answers. -/
structure Client (σ : Type) where
  Create : σ → Obj → Option Error × σ
  Update : σ → Obj → Option Error × σ
  Identify : σ → String → String → Except Error String × σ
  Get : σ → String → String → Except Error Obj × σ
  Delete : σ → String → String → Option Error × σ
  Disable : σ → String → String → Option Error × σ

/-- The platform state together with the log of the calls issued so far. -/
structure World (σ : Type) where
  state : σ
  calls : List Call

/-- The call `account.Create(client, obj)`. -/
def World.Create {σ : Type} (w : World σ) (c : Client σ) (obj : Obj) : Option Error × World σ :=
  ((c.Create w.state obj).1, ⟨(c.Create w.state obj).2, w.calls ++ [Call.Create obj]⟩)

/-- The call `account.Update(client, obj)`. -/
def World.Update {σ : Type} (w : World σ) (c : Client σ) (obj : Obj) : Option Error × World σ :=
  ((c.Update w.state obj).1, ⟨(c.Update w.state obj).2, w.calls ++ [Call.Update obj]⟩)

/-- The call `account.Identify(client, cloudType, name)`. -/
def World.Identify {σ : Type} (w : World σ) (c : Client σ) (cloudType name : String) :
    Except Error String × World σ :=
  ((c.Identify w.state cloudType name).1,
    ⟨(c.Identify w.state cloudType name).2, w.calls ++ [Call.Identify cloudType name]⟩)

/-- The call `account.Get(client, cloudType, id)`. -/
def World.Get {σ : Type} (w : World σ) (c : Client σ) (cloudType id : String) :
    Except Error Obj × World σ :=
  ((c.Get w.state cloudType id).1,
    ⟨(c.Get w.state cloudType id).2, w.calls ++ [Call.Get cloudType id]⟩)

/-- The call `account.Delete(client, cloudType, id)`. -/
def World.Delete {σ : Type} (w : World σ) (c : Client σ) (cloudType id : String) :
    Option Error × World σ :=
  ((c.Delete w.state cloudType id).1,
    ⟨(c.Delete w.state cloudType id).2, w.calls ++ [Call.Delete cloudType id]⟩)

/-- The call `account.Disable(client, cloudType, id)`. -/
def World.Disable {σ : Type} (w : World σ) (c : Client σ) (cloudType id : String) :
    Option Error × World σ :=
  ((c.Disable w.state cloudType id).1,
    ⟨(c.Disable w.state cloudType id).2, w.calls ++ [Call.Disable cloudType id]⟩)

/-- Modelled from the spec: `account.GetID` belongs to the client library, which
is not under `src/`. It needs no API call and gives "the identifier directly
from the submitted variant's `accountId` field"; for `nil` it gives an error. -/
def GetID : Obj → Except Error String
  | Obj.aws v => Except.ok v.AccountId
  | Obj.azure v => Except.ok v.Account.AccountId
  | Obj.gcp v => Except.ok v.Account.AccountId
  | Obj.alibaba v => Except.ok v.AccountId
  | Obj.nil => Except.error (Error.other "invalid cloud account type")

/-- Modelled from the spec: `TwoStringsToId` (the spec's `composeId`) is declared
elsewhere in the package. It joins the two components with the separator, taken
here as a parameter, one character. -/
def TwoStringsToId (sep : Char) (a b : String) : String :=
  String.mk (a.data ++ sep :: b.data)

/-- Splits a text at the first occurrence of the separator. -/
def splitFirst (sep : Char) : List Char → Option (List Char × List Char)
  | [] => none
  | c :: cs =>
    if c = sep then some ([], cs)
    else
      match splitFirst sep cs with
      | some (a, b) => some (c :: a, b)
      | none => none

/-- Modelled from the spec: `IdToTwoStrings` (the spec's `parseId`) is declared
elsewhere in the package. It splits the identity at the first occurrence of the
separator; `none` is `MalformedId`, the separator being absent. -/
def IdToTwoStrings (sep : Char) (v : String) : Option (String × String) :=
  match splitFirst sep v.data with
  | some (a, b) => some (String.mk a, String.mk b)
  | none => none

/-- What a lifecycle function leaves behind: the `error` it returns (`none` is
`nil`), the configuration tree and the platform with its call log. -/
structure Outcome (σ : Type) where
  err : Option Error
  d : ResourceData
  w : World σ

/-- The function `readCloudAccount` (source lines 515 to 531). The outer `none`
is the failure of `IdToTwoStrings` on a malformed identity, which the function
has no error path for. -/
def readCloudAccount {σ : Type} (sep : Char) (c : Client σ) (d : ResourceData) (w : World σ) :
    Option (Outcome σ) :=
  match IdToTwoStrings sep d.Id with
  | none => none
  | some (cloudType, id) =>
    match w.Get c cloudType id with
    | (Except.error err, w1) =>
      if err = Error.ObjectNotFoundError then
        some ⟨none, d.SetId "", w1⟩
      else some ⟨some err, d, w1⟩
    | (Except.ok obj, w1) =>
      some ⟨none, saveCloudAccount d cloudType obj, w1⟩

/-- The second half of `createCloudAccount` (source lines 489 to 512): identify
the account, fall back to `GetID` after an update in place of a create, store the
identity and read. -/
def createCloudAccountIdentify {σ : Type} (sep : Char) (c : Client σ) (d : ResourceData)
    (cloudType name : String) (obj : Obj) (updateIfExists successfulUpdate : Bool)
    (w : World σ) : Option (Outcome σ) :=
  match w.Identify c cloudType name with
  | (Except.error err, w1) =>
    if err = Error.ObjectNotFoundError ∧ updateIfExists = true ∧ successfulUpdate = true then
      match GetID obj with
      | Except.error parsedIDErr => some ⟨some parsedIDErr, d, w1⟩
      | Except.ok parsedID =>
        readCloudAccount sep c (d.SetId (TwoStringsToId sep cloudType parsedID)) w1
    else some ⟨some err, d, w1⟩
  | (Except.ok id, w1) =>
    readCloudAccount sep c (d.SetId (TwoStringsToId sep cloudType id)) w1

/-- The function `createCloudAccount` (source lines 467 to 513). The outer `none`
is a panic inside `parseCloudAccount` or the failure of `IdToTwoStrings`. -/
def createCloudAccount {σ : Type} (sep : Char) (c : Client σ) (d : ResourceData) (w : World σ) :
    Option (Outcome σ) :=
  match parseCloudAccount d with
  | none => none
  | some (cloudType, name, obj) =>
    let updateIfExists := d.update_on_create
    match w.Create c obj with
    | (some err, w1) =>
      if err = Error.DuplicateCloudAccountError ∧ updateIfExists = true then
        match w1.Update c obj with
        | (some err2, w2) => some ⟨some err2, d, w2⟩
        | (none, w2) =>
          createCloudAccountIdentify sep c d cloudType name obj updateIfExists true w2
      else some ⟨some err, d, w1⟩
    | (none, w1) =>
      createCloudAccountIdentify sep c d cloudType name obj updateIfExists false w1

/-- The function `updateCloudAccount` (source lines 533 to 543). -/
def updateCloudAccount {σ : Type} (sep : Char) (c : Client σ) (d : ResourceData) (w : World σ) :
    Option (Outcome σ) :=
  match parseCloudAccount d with
  | none => none
  | some (_, _, obj) =>
    match w.Update c obj with
    | (some err, w1) => some ⟨some err, d, w1⟩
    | (none, w1) => readCloudAccount sep c d w1

/-- The function `deleteCloudAccountAction` (source lines 545 to 566). The outer
`none` is the failure of `IdToTwoStrings` on a malformed identity. -/
def deleteCloudAccountAction {σ : Type} (sep : Char) (c : Client σ) (d : ResourceData)
    (w : World σ) : Option (Outcome σ) :=
  match IdToTwoStrings sep d.Id with
  | none => none
  | some (cloudType, id) =>
    let shouldDisable := d.disable_on_destroy
    let r := if shouldDisable then w.Disable c cloudType id else w.Delete c cloudType id
    match r with
    | (some err, w1) =>
      if err ≠ Error.ObjectNotFoundError then some ⟨some err, d, w1⟩
      else some ⟨none, d.SetId "", w1⟩
    | (none, w1) => some ⟨none, d.SetId "", w1⟩

/-! ## Concrete inputs -/

/-- An AWS account record. -/
def sampleAws : Aws :=
  { AccountId := "123456789012"
    Enabled := true
    ExternalId := "ext-1"
    GroupIds := ["g-1", "g-2"]
    Name := "prod"
    RoleArn := "arn:aws:iam::123456789012:role/prisma"
    ProtectionMode := "MONITOR"
    AccountType := "account" }

/-- A configuration tree with no block and no identity. -/
def emptyTree : ResourceData :=
  { id := "", aws := [], azure := [], gcp := [], alibaba := [],
    disable_on_destroy := false, update_on_create := false }

/-- A configuration of an AWS account with `update_on_create` as given. -/
def awsTree (updateOnCreate : Bool) : ResourceData :=
  { emptyTree with
    aws := [saveCloudAccountVal (Obj.aws sampleAws)]
    update_on_create := updateOnCreate }

/-- A tree that stores the identity of the sample AWS account. -/
def storedTree (disableOnDestroy : Bool) : ResourceData :=
  { emptyTree with
    id := "aws:123456789012"
    disable_on_destroy := disableOnDestroy }

/-- A platform on which the account exists already but is not found by name:
`Create` answers `DuplicateCloudAccountError`, `Update` succeeds, `Identify`
answers `ObjectNotFoundError`, `Get` returns the sample AWS account, `Delete`
and `Disable` answer `ObjectNotFoundError`. -/
def renamedPlatform : Client Unit :=
  { Create := fun s _ => (some Error.DuplicateCloudAccountError, s)
    Update := fun s _ => (none, s)
    Identify := fun s _ _ => (Except.error Error.ObjectNotFoundError, s)
    Get := fun s _ _ => (Except.ok (Obj.aws sampleAws), s)
    Delete := fun s _ _ => (some Error.ObjectNotFoundError, s)
    Disable := fun s _ _ => (some Error.ObjectNotFoundError, s) }

/-- A platform on which nothing exists: `Create` succeeds, `Identify` returns the
account id, `Get` answers `ObjectNotFoundError`. -/
def freshPlatform : Client Unit :=
  { Create := fun s _ => (none, s)
    Update := fun s _ => (none, s)
    Identify := fun s _ _ => (Except.ok "123456789012", s)
    Get := fun s _ _ => (Except.error Error.ObjectNotFoundError, s)
    Delete := fun s _ _ => (none, s)
    Disable := fun s _ _ => (none, s) }

/-- A platform that is out of reach: every call answers with another error. -/
def brokenPlatform : Client Unit :=
  { Create := fun s _ => (some (Error.other "timeout"), s)
    Update := fun s _ => (some (Error.other "timeout"), s)
    Identify := fun s _ _ => (Except.error (Error.other "timeout"), s)
    Get := fun s _ _ => (Except.error (Error.other "timeout"), s)
    Delete := fun s _ _ => (some (Error.other "timeout"), s)
    Disable := fun s _ _ => (some (Error.other "timeout"), s) }

/-- The platform state before any call. -/
def startWorld : World Unit := ⟨(), []⟩

/-- A credentials text as a person writes it: two members, spaces and line breaks. -/
def handWritten : List SpacedMember :=
  [⟨"type", "service_account", ['\n', ' '], [], [' '], []⟩,
   ⟨"project_id", "proj-1", ['\n', ' '], [' '], [' '], ['\n']⟩]

/-- The same members in the other order and without whitespace. -/
def reordered : List SpacedMember :=
  [⟨"project_id", "proj-1", [], [], [], []⟩,
   ⟨"type", "service_account", [], [], [], []⟩]

/-! ## Reading blocks through the schema -/

theorem readField_fst (m : FieldMap) (f : String × FieldSchema) : (readField m f).1 = f.1 := by
  unfold readField
  split
  · split <;> rfl
  · rfl

theorem lookup_readBlock (s : BlockSchema) (m : FieldMap) (k : String) :
    List.lookup k (readBlock s m) = (List.lookup k s).map (fun f => (readField m (k, f)).2) := by
  induction s with
  | nil => rfl
  | cons f s ih =>
    obtain ⟨k1, t1⟩ := f
    have h1 : readField m (k1, t1) = (k1, (readField m (k1, t1)).2) :=
      Prod.ext (readField_fst m (k1, t1)) rfl
    unfold readBlock at ih ⊢
    rw [List.map_cons, h1, List.lookup_cons, List.lookup_cons, ih]
    by_cases hk : k = k1
    · subst hk; simp
    · have : (k == k1) = false := by simpa using hk
      simp [this]

theorem listToStringSlice_map (xs : List String) :
    ListToStringSlice (xs.map Value.str) = some xs := by
  induction xs with
  | nil => rfl
  | cons x xs ih => simp [ListToStringSlice, Value.asString, ih]

theorem listToStringSlice_all (xs : List Value) (h : xs.all Value.isStr = true) :
    ListToStringSlice xs = some (xs.filterMap Value.asString) := by
  induction xs with
  | nil => rfl
  | cons x xs ih =>
    cases x <;> simp_all [ListToStringSlice, Value.asString, Value.isStr]

theorem getString_readBlock (s : BlockSchema) (m : FieldMap) (k : String) (f : FieldSchema)
    (dflt : String) (hk : List.lookup k s = some f) (ht : f.Typ = ValueType.TypeString)
    (hd : f.defaultValue = Value.str dflt) :
    getString (readBlock s m) k = some (blockString m k dflt) := by
  unfold getString
  rw [lookup_readBlock, hk]
  cases hm : List.lookup k m with
  | none => simp [readField, blockString, hm, hd]
  | some v => cases v <;> simp [readField, blockString, hm, coerce, ht, hd]

theorem getBool_readBlock (s : BlockSchema) (m : FieldMap) (k : String) (f : FieldSchema)
    (dflt : Bool) (hk : List.lookup k s = some f) (ht : f.Typ = ValueType.TypeBool)
    (hd : f.defaultValue = Value.bool dflt) :
    getBool (readBlock s m) k = some (blockBool m k dflt) := by
  unfold getBool
  rw [lookup_readBlock, hk]
  cases hm : List.lookup k m with
  | none => simp [readField, blockBool, hm, hd]
  | some v => cases v <;> simp [readField, blockBool, hm, coerce, ht, hd]

theorem coerce_list_pos (xs : List Value) (h : xs.all Value.isStr = true) :
    coerce ValueType.TypeListOfString (Value.list xs) = some (Value.list xs) := by
  show (if xs.all Value.isStr = true then some (Value.list xs) else none) = _
  rw [if_pos h]

theorem coerce_list_neg (xs : List Value) (h : ¬ xs.all Value.isStr = true) :
    coerce ValueType.TypeListOfString (Value.list xs) = none := by
  show (if xs.all Value.isStr = true then some (Value.list xs) else none) = _
  rw [if_neg h]

theorem getStrings_readBlock (s : BlockSchema) (m : FieldMap) (k : String) (f : FieldSchema)
    (hk : List.lookup k s = some f) (ht : f.Typ = ValueType.TypeListOfString)
    (hd : f.defaultValue = Value.list []) :
    getStrings (readBlock s m) k = some (blockStrings m k) := by
  unfold getStrings
  rw [lookup_readBlock, hk]
  cases hm : List.lookup k m with
  | none => simp [readField, blockStrings, hm, hd, ListToStringSlice]
  | some v =>
    cases v with
    | str s => simp [readField, blockStrings, hm, coerce, ht, hd, ListToStringSlice]
    | bool b => simp [readField, blockStrings, hm, coerce, ht, hd, ListToStringSlice]
    | strings xs => simp [readField, blockStrings, hm, coerce, ht, listToStringSlice_map]
    | list xs =>
      by_cases hx : xs.all Value.isStr = true
      · simp only [readField, blockStrings, hm, ht, coerce_list_pos xs hx, Option.map_some',
          if_pos hx]
        exact listToStringSlice_all xs hx
      · simp only [readField, blockStrings, hm, ht, coerce_list_neg xs hx, Option.map_some',
          if_neg hx, hd]
        rfl

/-! ## `parseCloudAccount`, block by block -/

theorem interfaceMap_aws_nil (d : ResourceData) (h : d.aws = []) :
    ResourceDataInterfaceMap d TypeAws = [] := by
  simp [ResourceDataInterfaceMap, blockSchema, ResourceData.GetList, h]

theorem interfaceMap_aws_cons (d : ResourceData) (m : FieldMap) (rest : List FieldMap)
    (h : d.aws = m :: rest) : ResourceDataInterfaceMap d TypeAws = readBlock awsSchema m := by
  simp [ResourceDataInterfaceMap, blockSchema, ResourceData.GetList, h]

theorem interfaceMap_azure_nil (d : ResourceData) (h : d.azure = []) :
    ResourceDataInterfaceMap d TypeAzure = [] := by
  simp [ResourceDataInterfaceMap, blockSchema, ResourceData.GetList, h, TypeAws, TypeAzure]

theorem interfaceMap_azure_cons (d : ResourceData) (m : FieldMap) (rest : List FieldMap)
    (h : d.azure = m :: rest) : ResourceDataInterfaceMap d TypeAzure = readBlock azureSchema m := by
  simp [ResourceDataInterfaceMap, blockSchema, ResourceData.GetList, h, TypeAws, TypeAzure]

theorem interfaceMap_gcp_nil (d : ResourceData) (h : d.gcp = []) :
    ResourceDataInterfaceMap d TypeGcp = [] := by
  simp [ResourceDataInterfaceMap, blockSchema, ResourceData.GetList, h, TypeAws, TypeAzure, TypeGcp]

theorem interfaceMap_gcp_cons (d : ResourceData) (m : FieldMap) (rest : List FieldMap)
    (h : d.gcp = m :: rest) : ResourceDataInterfaceMap d TypeGcp = readBlock gcpSchema m := by
  simp [ResourceDataInterfaceMap, blockSchema, ResourceData.GetList, h, TypeAws, TypeAzure, TypeGcp]

theorem interfaceMap_alibaba_nil (d : ResourceData) (h : d.alibaba = []) :
    ResourceDataInterfaceMap d TypeAlibaba = [] := by
  simp [ResourceDataInterfaceMap, blockSchema, ResourceData.GetList, h, TypeAws, TypeAzure,
    TypeGcp, TypeAlibaba]

theorem interfaceMap_alibaba_cons (d : ResourceData) (m : FieldMap) (rest : List FieldMap)
    (h : d.alibaba = m :: rest) :
    ResourceDataInterfaceMap d TypeAlibaba = readBlock alibabaSchema m := by
  simp [ResourceDataInterfaceMap, blockSchema, ResourceData.GetList, h, TypeAws, TypeAzure,
    TypeGcp, TypeAlibaba]

theorem parse_aws (d : ResourceData) (m : FieldMap) (rest : List FieldMap)
    (h : d.aws = m :: rest) :
    parseCloudAccount d = some (TypeAws, blockString m "name" "", Obj.aws (awsOfBlock m)) := by
  unfold parseCloudAccount
  simp only [interfaceMap_aws_cons d m rest h]
  rw [if_pos (by simp [readBlock, awsSchema])]
  simp only [getString_readBlock awsSchema m "name" (FieldSchema.required ValueType.TypeString) "" (by rfl) (by rfl) (by rfl),
    getString_readBlock awsSchema m "account_id" (FieldSchema.required ValueType.TypeString) "" (by rfl) (by rfl) (by rfl),
    getBool_readBlock awsSchema m "enabled" (FieldSchema.optionalDefault ValueType.TypeBool (Value.bool true)) true (by rfl) (by rfl) (by rfl),
    getStrings_readBlock awsSchema m "group_ids" (FieldSchema.required ValueType.TypeListOfString) (by rfl) (by rfl) (by rfl),
    getString_readBlock awsSchema m "external_id" (FieldSchema.required ValueType.TypeString) "" (by rfl) (by rfl) (by rfl),
    getString_readBlock awsSchema m "role_arn" (FieldSchema.required ValueType.TypeString) "" (by rfl) (by rfl) (by rfl),
    getString_readBlock awsSchema m "protection_mode" (FieldSchema.optionalDefault ValueType.TypeString (Value.str "MONITOR")) "MONITOR" (by rfl) (by rfl) (by rfl),
    getString_readBlock awsSchema m "account_type" (FieldSchema.optionalDefault ValueType.TypeString (Value.str "account")) "account" (by rfl) (by rfl) (by rfl)]
  rfl

theorem parse_azure (d : ResourceData) (m : FieldMap) (rest : List FieldMap)
    (h1 : d.aws = []) (h : d.azure = m :: rest) :
    parseCloudAccount d =
      some (TypeAzure, blockString m "name" "", Obj.azure (azureOfBlock m)) := by
  unfold parseCloudAccount
  simp only [interfaceMap_aws_nil d h1, interfaceMap_azure_cons d m rest h]
  rw [if_neg (by simp), if_pos (by simp [readBlock, azureSchema])]
  simp only [getString_readBlock azureSchema m "name" (FieldSchema.required ValueType.TypeString) "" (by rfl) (by rfl) (by rfl),
    getString_readBlock azureSchema m "account_id" (FieldSchema.required ValueType.TypeString) "" (by rfl) (by rfl) (by rfl),
    getBool_readBlock azureSchema m "enabled" (FieldSchema.optionalDefault ValueType.TypeBool (Value.bool true)) true (by rfl) (by rfl) (by rfl),
    getStrings_readBlock azureSchema m "group_ids" (FieldSchema.required ValueType.TypeListOfString) (by rfl) (by rfl) (by rfl),
    getString_readBlock azureSchema m "protection_mode" (FieldSchema.optionalDefault ValueType.TypeString (Value.str "MONITOR")) "MONITOR" (by rfl) (by rfl) (by rfl),
    getString_readBlock azureSchema m "account_type" (FieldSchema.optionalDefault ValueType.TypeString (Value.str "account")) "account" (by rfl) (by rfl) (by rfl),
    getString_readBlock azureSchema m "client_id" (FieldSchema.required ValueType.TypeString) "" (by rfl) (by rfl) (by rfl),
    getString_readBlock azureSchema m "key" (FieldSchema.required ValueType.TypeString) "" (by rfl) (by rfl) (by rfl),
    getString_readBlock azureSchema m "tenant_id" (FieldSchema.required ValueType.TypeString) "" (by rfl) (by rfl) (by rfl),
    getString_readBlock azureSchema m "service_principal_id" (FieldSchema.required ValueType.TypeString) "" (by rfl) (by rfl) (by rfl),
    getBool_readBlock azureSchema m "monitor_flow_logs" (FieldSchema.optional ValueType.TypeBool) false (by rfl) (by rfl) (by rfl)]
  rfl

theorem parse_gcp (d : ResourceData) (m : FieldMap) (rest : List FieldMap)
    (h1 : d.aws = []) (h2 : d.azure = []) (h : d.gcp = m :: rest) :
    parseCloudAccount d = some (TypeGcp, blockString m "name" "", Obj.gcp (gcpOfBlock m)) := by
  unfold parseCloudAccount
  simp only [interfaceMap_aws_nil d h1, interfaceMap_azure_nil d h2,
    interfaceMap_gcp_cons d m rest h]
  rw [if_neg (by simp), if_neg (by simp), if_pos (by simp [readBlock, gcpSchema])]
  simp only [getString_readBlock gcpSchema m "name" (FieldSchema.required ValueType.TypeString) "" (by rfl) (by rfl) (by rfl),
    getString_readBlock gcpSchema m "account_id" (FieldSchema.required ValueType.TypeString) "" (by rfl) (by rfl) (by rfl),
    getBool_readBlock gcpSchema m "enabled" (FieldSchema.optionalDefault ValueType.TypeBool (Value.bool true)) true (by rfl) (by rfl) (by rfl),
    getStrings_readBlock gcpSchema m "group_ids" (FieldSchema.required ValueType.TypeListOfString) (by rfl) (by rfl) (by rfl),
    getString_readBlock gcpSchema m "protection_mode" (FieldSchema.optionalDefault ValueType.TypeString (Value.str "MONITOR")) "MONITOR" (by rfl) (by rfl) (by rfl),
    getString_readBlock gcpSchema m "account_type" (FieldSchema.optionalDefault ValueType.TypeString (Value.str "account")) "account" (by rfl) (by rfl) (by rfl),
    getString_readBlock gcpSchema m "credentials_json" (FieldSchema.required ValueType.TypeString) "" (by rfl) (by rfl) (by rfl),
    getString_readBlock gcpSchema m "dataflow_enabled_project" (FieldSchema.optional ValueType.TypeString) "" (by rfl) (by rfl) (by rfl),
    getString_readBlock gcpSchema m "flow_log_storage_bucket" (FieldSchema.optional ValueType.TypeString) "" (by rfl) (by rfl) (by rfl),
    getBool_readBlock gcpSchema m "compression_enabled" (FieldSchema.optional ValueType.TypeBool) false (by rfl) (by rfl) (by rfl)]
  rfl

theorem parse_alibaba (d : ResourceData) (m : FieldMap) (rest : List FieldMap)
    (h1 : d.aws = []) (h2 : d.azure = []) (h3 : d.gcp = []) (h : d.alibaba = m :: rest) :
    parseCloudAccount d =
      some (TypeAlibaba, blockString m "name" "", Obj.alibaba (alibabaOfBlock m)) := by
  unfold parseCloudAccount
  simp only [interfaceMap_aws_nil d h1, interfaceMap_azure_nil d h2, interfaceMap_gcp_nil d h3,
    interfaceMap_alibaba_cons d m rest h]
  rw [if_neg (by simp), if_neg (by simp), if_neg (by simp),
    if_pos (by simp [readBlock, alibabaSchema])]
  simp only [getString_readBlock alibabaSchema m "name" (FieldSchema.required ValueType.TypeString) "" (by rfl) (by rfl) (by rfl),
    getString_readBlock alibabaSchema m "account_id" (FieldSchema.required ValueType.TypeString) "" (by rfl) (by rfl) (by rfl),
    getBool_readBlock alibabaSchema m "enabled" (FieldSchema.optionalDefault ValueType.TypeBool (Value.bool true)) true (by rfl) (by rfl) (by rfl),
    getStrings_readBlock alibabaSchema m "group_ids" (FieldSchema.required ValueType.TypeListOfString) (by rfl) (by rfl) (by rfl),
    getString_readBlock alibabaSchema m "ram_arn" (FieldSchema.required ValueType.TypeString) "" (by rfl) (by rfl) (by rfl)]
  rfl

theorem parse_none (d : ResourceData)
    (h1 : d.aws = []) (h2 : d.azure = []) (h3 : d.gcp = []) (h4 : d.alibaba = []) :
    parseCloudAccount d = some ("", "", Obj.nil) := by
  unfold parseCloudAccount
  simp only [interfaceMap_aws_nil d h1, interfaceMap_azure_nil d h2, interfaceMap_gcp_nil d h3,
    interfaceMap_alibaba_nil d h4]
  rw [if_neg (by simp), if_neg (by simp), if_neg (by simp), if_neg (by simp)]

theorem parse_total (d : ResourceData) : ∃ r, parseCloudAccount d = some r := by
  cases h1 : d.aws with
  | cons m rest => exact ⟨_, parse_aws d m rest h1⟩
  | nil =>
    cases h2 : d.azure with
    | cons m rest => exact ⟨_, parse_azure d m rest h1 h2⟩
    | nil =>
      cases h3 : d.gcp with
      | cons m rest => exact ⟨_, parse_gcp d m rest h1 h2 h3⟩
      | nil =>
        cases h4 : d.alibaba with
        | cons m rest => exact ⟨_, parse_alibaba d m rest h1 h2 h3 h4⟩
        | nil => exact ⟨_, parse_none d h1 h2 h3 h4⟩

/-! ## `saveCloudAccount` -/

theorem save_aws (d : ResourceData) (v : Aws) :
    saveCloudAccount d TypeAws (Obj.aws v) =
      { d with
        aws := [storeBlock awsSchema (saveCloudAccountVal (Obj.aws v))]
        azure := []
        gcp := []
        alibaba := [] } := rfl

theorem save_azure (d : ResourceData) (v : Azure) :
    saveCloudAccount d TypeAzure (Obj.azure v) =
      { d with
        aws := []
        azure := [storeBlock azureSchema (saveCloudAccountVal (Obj.azure v))]
        gcp := []
        alibaba := [] } := rfl

theorem save_gcp (d : ResourceData) (v : Gcp) :
    saveCloudAccount d TypeGcp (Obj.gcp v) =
      { d with
        aws := []
        azure := []
        gcp := [storeBlock gcpSchema (saveCloudAccountVal (Obj.gcp v))]
        alibaba := [] } := rfl

theorem save_alibaba (d : ResourceData) (v : Alibaba) :
    saveCloudAccount d TypeAlibaba (Obj.alibaba v) =
      { d with
        aws := []
        azure := []
        gcp := []
        alibaba := [storeBlock alibabaSchema (saveCloudAccountVal (Obj.alibaba v))] } := rfl

theorem filterMap_asString_map (xs : List String) :
    (xs.map Value.str).filterMap Value.asString = xs := by
  induction xs with
  | nil => rfl
  | cons x xs ih =>
    rw [List.map_cons, List.filterMap_cons]
    simp only [Value.asString, ih]

theorem all_isStr_map (xs : List String) : (xs.map Value.str).all Value.isStr = true := by
  induction xs with
  | nil => rfl
  | cons x xs ih => simp [Value.isStr]

theorem blockStrings_list (m : FieldMap) (k : String) (xs : List String)
    (h : List.lookup k m = some (Value.list (xs.map Value.str))) : blockStrings m k = xs := by
  unfold blockStrings
  rw [h]
  simp only [all_isStr_map, if_true, filterMap_asString_map]

theorem awsOfBlock_save (v : Aws) :
    awsOfBlock (storeBlock awsSchema (saveCloudAccountVal (Obj.aws v))) = v := by
  have hg : blockStrings (storeBlock awsSchema (saveCloudAccountVal (Obj.aws v))) "group_ids"
      = v.GroupIds := blockStrings_list _ _ _ rfl
  unfold awsOfBlock
  rw [hg]
  rfl

theorem azureOfBlock_save (v : Azure) :
    azureOfBlock (storeBlock azureSchema (saveCloudAccountVal (Obj.azure v))) = v := by
  have hg : blockStrings (storeBlock azureSchema (saveCloudAccountVal (Obj.azure v))) "group_ids"
      = v.Account.GroupIds := blockStrings_list _ _ _ rfl
  unfold azureOfBlock
  rw [hg]
  rfl

theorem alibabaOfBlock_save (v : Alibaba) :
    alibabaOfBlock (storeBlock alibabaSchema (saveCloudAccountVal (Obj.alibaba v))) = v := by
  have hg : blockStrings (storeBlock alibabaSchema (saveCloudAccountVal (Obj.alibaba v)))
      "group_ids" = v.GroupIds := blockStrings_list _ _ _ rfl
  unfold alibabaOfBlock
  rw [hg]
  rfl

/-! ## `json.Unmarshal` reads back what `json.Marshal` writes -/

theorem getu4_hex (n : Nat) (h : n < 64) :
    getu4 '0' '0' (hexDigit (n / 16)) (hexDigit (n % 16)) = some n := by
  interval_cases n <;> rfl

theorem consChar_some (c : Char) (s rest : List Char) :
    consChar c (some (s, rest)) = some (c :: s, rest) := rfl

theorem parseStrAux_quote (n : Nat) (rest : List Char) :
    parseStrAux (n + 1) ('"' :: rest) = some ([], rest) := by
  rw [parseStrAux]; simp

theorem parseStrAux_raw (n : Nat) (c : Char) (rest : List Char) (h1 : c ≠ '"') (h2 : c ≠ '\\')
    (h3 : ¬ c.toNat < 0x20) :
    parseStrAux (n + 1) (c :: rest) = consChar c (parseStrAux n rest) := by
  rw [parseStrAux]; simp [h1, h2, h3]

theorem parseStrAux_esc (n : Nat) (e ch : Char) (rest : List Char) (h1 : e ≠ 'u')
    (h2 : unescape e = some ch) :
    parseStrAux (n + 1) ('\\' :: e :: rest) = consChar ch (parseStrAux n rest) := by
  rw [parseStrAux]; simp [readEscape, h1, h2]

theorem parseStrAux_u (n : Nat) (a b c d : Char) (u : Nat) (rest : List Char)
    (h1 : getu4 a b c d = some u) (h2 : isSurrogate u = false) :
    parseStrAux (n + 1) ('\\' :: 'u' :: a :: b :: c :: d :: rest) =
      consChar (Char.ofNat u) (parseStrAux n rest) := by
  rw [parseStrAux]; simp [readEscape, h1, h2]

theorem escapeRune_length_pos (c : Char) : 1 ≤ (escapeRune c).length := by
  unfold escapeRune
  split_ifs <;> simp

theorem escapeString_length (s : List Char) : s.length ≤ (escapeString s).length := by
  induction s with
  | nil => simp [escapeString]
  | cons c cs ih =>
    have := escapeRune_length_pos c
    simp only [escapeString, List.length_append, List.length_cons]
    omega

theorem parseStrAux_escapeString (s : List Char) :
    ∀ (n : Nat) (rest : List Char), s.length < n →
      parseStrAux n (escapeString s ++ '"' :: rest) = some (s, rest) := by
  induction s with
  | nil =>
    intro n rest hn
    obtain ⟨m, rfl⟩ : ∃ m, n = m + 1 := ⟨n - 1, by omega⟩
    exact parseStrAux_quote m rest
  | cons c cs ih =>
    intro n rest hn
    obtain ⟨m, rfl⟩ : ∃ m, n = m + 1 := ⟨n - 1, by omega⟩
    have hm : cs.length < m := by simpa using hn
    have ih1 := ih m rest hm
    simp only [escapeString, List.append_assoc]
    unfold escapeRune
    split_ifs with h1 h2 h3 h4 h5 h6 h7 h8
    · subst h1
      simp only [List.cons_append, List.nil_append]
      rw [parseStrAux_esc m '"' '"' _ (by decide) (by rfl), ih1]; rfl
    · subst h2
      simp only [List.cons_append, List.nil_append]
      rw [parseStrAux_esc m '\\' '\\' _ (by decide) (by rfl), ih1]; rfl
    · subst h3
      simp only [List.cons_append, List.nil_append]
      rw [parseStrAux_esc m 'n' '\n' _ (by decide) (by rfl), ih1]; rfl
    · subst h4
      simp only [List.cons_append, List.nil_append]
      rw [parseStrAux_esc m 'r' '\r' _ (by decide) (by rfl), ih1]; rfl
    · subst h5
      simp only [List.cons_append, List.nil_append]
      rw [parseStrAux_esc m 't' '\t' _ (by decide) (by rfl), ih1]; rfl
    · have hlt : c.toNat < 64 := by
        rcases h6 with h | h | h | h
        · omega
        · subst h; decide
        · subst h; decide
        · subst h; decide
      simp only [List.cons_append, List.nil_append]
      rw [parseStrAux_u m _ _ _ _ c.toNat _ (getu4_hex c.toNat hlt)
        (by simp [isSurrogate]; omega), ih1, Char.ofNat_toNat]; rfl
    · simp only [List.cons_append, List.nil_append]
      rw [parseStrAux_u m _ _ _ _ 0x2028 _ (by rfl) (by rfl), ih1, ← h7, Char.ofNat_toNat]; rfl
    · simp only [List.cons_append, List.nil_append]
      rw [parseStrAux_u m _ _ _ _ 0x2029 _ (by rfl) (by rfl), ih1, ← h8, Char.ofNat_toNat]; rfl
    · simp only [List.cons_append, List.nil_append]
      have h6' : ¬ c.toNat < 0x20 := fun h => h6 (Or.inl h)
      rw [parseStrAux_raw m c _ h1 h2 h6', ih1]; rfl

theorem parseStr_escapeString (s rest : List Char) :
    parseStr (escapeString s ++ '"' :: rest) = some (s, rest) := by
  unfold parseStr
  apply parseStrAux_escapeString
  have := escapeString_length s
  simp only [List.length_append, List.length_cons]
  omega

theorem skipWs_append (w r : List Char) (h : w.all isWs = true) :
    skipWs (w ++ r) = skipWs r := by
  induction w with
  | nil => rfl
  | cons c w ih =>
    simp only [List.all_cons, Bool.and_eq_true] at h
    simp only [List.cons_append, skipWs, h.1, if_true]
    exact ih h.2

theorem skipWs_cons (c : Char) (r : List Char) (h : isWs c = false) :
    skipWs (c :: r) = c :: r := by
  simp [skipWs, h]

theorem parseValue_string (n : Nat) (w s r : List Char) (hw : w.all isWs = true) :
    parseValue (n + 1) (w ++ (encodeString s ++ r)) = some (Json.str s, r) := by
  rw [parseValue, skipWs_append w _ hw]
  simp only [encodeString, List.cons_append, List.append_assoc, List.nil_append]
  rw [skipWs_cons '"' _ (by decide)]
  simp only [if_true, parseStr_escapeString]

theorem SpacedMember.wsOk_iff (m : SpacedMember) :
    m.wsOk = true ↔
      m.w1.all isWs = true ∧ m.w2.all isWs = true ∧ m.w3.all isWs = true ∧
        m.w4.all isWs = true := by
  simp only [SpacedMember.wsOk, Bool.and_eq_true, and_assoc]

theorem parseMembers_step (n : Nat) (m : SpacedMember) (hm : m.wsOk = true) (x : Char)
    (hx : isWs x = false) (rest : List Char) :
    parseMembers (n + 2) (m.text ++ x :: rest) =
      match x :: rest with
      | ',' :: r4 =>
        match parseMembers (n + 1) r4 with
        | some (ms, r5) => some ((m.key.data, Json.str m.value.data) :: ms, r5)
        | none => none
      | '}' :: r4 => some ([(m.key.data, Json.str m.value.data)], r4)
      | _ => none := by
  obtain ⟨h1, h2, h3, h4⟩ := (SpacedMember.wsOk_iff m).1 hm
  rw [parseMembers]
  simp only [SpacedMember.text, List.append_assoc]
  rw [skipWs_append _ _ h1]
  simp only [encodeString, List.cons_append, List.append_assoc, List.nil_append]
  rw [skipWs_cons '"' _ (by decide)]
  simp only [parseStr_escapeString]
  rw [skipWs_append _ _ h2, skipWs_cons ':' _ (by decide)]
  simp only []
  have hv := parseValue_string n m.w3 m.value.data (m.w4 ++ x :: rest) h3
  simp only [encodeString, List.cons_append, List.append_assoc, List.nil_append] at hv
  rw [hv]
  simp only []
  rw [skipWs_append _ _ h4, skipWs_cons x _ hx]

/-- The parsed members of an object text. -/
theorem parseMembers_spaced (ms : List SpacedMember) :
    ms ≠ [] → (∀ m ∈ ms, m.wsOk = true) → ∀ (j : Nat) (rest : List Char),
      parseMembers (ms.length + 1 + j) (spacedMembers ms ++ '}' :: rest) =
        some (ms.map (fun m => (m.key.data, Json.str m.value.data)), rest) := by
  induction ms with
  | nil => intro h; exact absurd rfl h
  | cons m ms ih =>
    intro _ hws j rest
    have hm : m.wsOk = true := hws m (List.mem_cons_self _ _)
    cases ms with
    | nil =>
      have h := parseMembers_step j m hm '}' (by decide) rest
      simp only [List.length_singleton, spacedMembers, List.map_cons, List.map_nil]
      rw [show 1 + 1 + j = j + 2 by omega, h]
      rfl
    | cons m1 ms1 =>
      have ih1 := ih (List.cons_ne_nil _ _) (fun x hx => hws x (List.mem_cons_of_mem _ hx)) j rest
      have h := parseMembers_step ((m1 :: ms1).length + j) m hm ','
        (by decide) (spacedMembers (m1 :: ms1) ++ '}' :: rest)
      simp only [spacedMembers, List.append_assoc, List.cons_append]
      rw [show (m :: m1 :: ms1).length + 1 + j = (m1 :: ms1).length + j + 2 by
        simp only [List.length_cons]; omega, h]
      simp only []
      rw [show (m1 :: ms1).length + j + 1 = (m1 :: ms1).length + 1 + j by omega, ih1]
      rfl

theorem skipWs_all (w : List Char) (h : w.all isWs = true) : skipWs w = [] := by
  have := skipWs_append w [] h
  simpa [skipWs] using this

theorem encodeString_length (s : List Char) : 2 ≤ (encodeString s).length := by
  simp [encodeString]

theorem spacedMembers_length (ms : List SpacedMember) :
    ms.length ≤ (spacedMembers ms).length := by
  induction ms with
  | nil => simp
  | cons m ms ih =>
    have hk := encodeString_length m.key.data
    cases ms with
    | nil =>
      simp only [spacedMembers, SpacedMember.text, List.length_append, List.length_singleton]
      omega
    | cons m1 ms1 =>
      simp only [spacedMembers, SpacedMember.text, List.length_append, List.length_cons] at ih ⊢
      omega

theorem parseValue_object (lead trail : List Char) (ms : List SpacedMember)
    (hl : lead.all isWs = true) (hws : ∀ m ∈ ms, m.wsOk = true) (j : Nat) :
    parseValue (ms.length + 2 + j) (lead ++ '{' :: (spacedMembers ms ++ '}' :: trail)) =
      some (Json.obj (ms.map (fun m => (m.key.data, Json.str m.value.data))), trail) := by
  rw [show ms.length + 2 + j = (ms.length + 1 + j) + 1 by omega, parseValue,
    skipWs_append _ _ hl, skipWs_cons '{' _ (by decide)]
  simp only [Char.reduceEq, if_false, if_true, reduceCtorEq]
  cases ms with
  | nil =>
    simp only [spacedMembers, List.nil_append]
    rw [skipWs_cons '}' _ (by decide)]
    rfl
  | cons m ms1 =>
    have hm : m.wsOk = true := hws m (List.mem_cons_self _ _)
    have h1 := ((SpacedMember.wsOk_iff m).1 hm).1
    have hhead : ∃ tl, spacedMembers (m :: ms1) ++ '}' :: trail = m.w1 ++ '"' :: tl := by
      cases ms1 with
      | nil => exact ⟨_, by simp [spacedMembers, SpacedMember.text, encodeString]; rfl⟩
      | cons m2 ms2 => exact ⟨_, by simp [spacedMembers, SpacedMember.text, encodeString]; rfl⟩
    obtain ⟨tl, htl⟩ := hhead
    have hskip : skipWs (spacedMembers (m :: ms1) ++ '}' :: trail) = '"' :: tl := by
      rw [htl, skipWs_append _ _ h1, skipWs_cons '"' _ (by decide)]
    rw [hskip, parseMembers_spaced (m :: ms1) (List.cons_ne_nil _ _) hws j trail]
    rfl

theorem parse_objectText (lead trail : List Char) (ms : List SpacedMember)
    (hl : lead.all isWs = true) (ht : trail.all isWs = true)
    (hws : ∀ m ∈ ms, m.wsOk = true) :
    parse (objectText lead ms trail).data =
      some (Json.obj (ms.map (fun m => (m.key.data, Json.str m.value.data)))) := by
  have hlen := spacedMembers_length ms
  unfold parse objectText
  obtain ⟨j, hj⟩ : ∃ j, (lead ++ '{' :: (spacedMembers ms ++ '}' :: trail)).length + 1 =
      ms.length + 2 + j := by
    refine ⟨(lead ++ '{' :: (spacedMembers ms ++ '}' :: trail)).length + 1 - (ms.length + 2), ?_⟩
    simp only [List.length_append, List.length_cons]
    omega
  simp only [hj, parseValue_object lead trail ms hl hws j, skipWs_all trail ht, if_true]

/-! ## The bound on the nested calls of the parser never decides the result -/

theorem skipWs_length (cs : List Char) : (skipWs cs).length ≤ cs.length := by
  induction cs with
  | nil => simp [skipWs]
  | cons c cs ih =>
    unfold skipWs
    split
    · simp only [List.length_cons]; omega
    · exact Nat.le_refl _

theorem readEscape_length (cs rest : List Char) (ch : Char)
    (h : readEscape cs = some (ch, rest)) : rest.length < cs.length := by
  unfold readEscape at h
  split at h
  · exact absurd h (by simp)
  · rename_i e r
    split at h
    · split at h
      · rename_i a b c d rest2
        split at h
        · exact absurd h (by simp)
        · split at h
          · split at h
            · split at h
              · cases h; simp only [List.length_cons]; omega
              · cases h; simp only [List.length_cons, List.length_drop]; omega
            · cases h; simp only [List.length_cons]; omega
          · cases h; simp only [List.length_cons]; omega
      · exact absurd h (by simp)
    · split at h
      · cases h; simp only [List.length_cons]; omega
      · exact absurd h (by simp)

theorem consChar_eq_some (c : Char) (x : Option (List Char × List Char)) (s rest : List Char)
    (h : consChar c x = some (s, rest)) : ∃ s1, x = some (s1, rest) := by
  cases x with
  | none => exact absurd h (by simp [consChar])
  | some p =>
    obtain ⟨s1, r1⟩ := p
    simp only [consChar, Option.some.injEq, Prod.mk.injEq] at h
    exact ⟨s1, by rw [h.2]⟩

theorem parseStrAux_length (n : Nat) :
    ∀ (cs s rest : List Char), parseStrAux n cs = some (s, rest) → rest.length < cs.length := by
  induction n with
  | zero => intro cs s rest h; exact absurd h (by simp [parseStrAux])
  | succ n ih =>
    intro cs s rest h
    cases cs with
    | nil => exact absurd h (by simp [parseStrAux])
    | cons c r =>
      rw [parseStrAux] at h
      split at h
      · cases h; simp
      · split at h
        · split at h
          · rename_i ch rest1 he
            obtain ⟨s1, hs1⟩ := consChar_eq_some _ _ _ _ h
            have h1 := ih _ _ _ hs1
            have h2 := readEscape_length _ _ _ he
            simp only [List.length_cons]; omega
          · exact absurd h (by simp)
        · split at h
          · exact absurd h (by simp)
          · obtain ⟨s1, hs1⟩ := consChar_eq_some _ _ _ _ h
            have h1 := ih _ _ _ hs1
            simp only [List.length_cons]; omega

theorem parseStr_length (cs s rest : List Char) (h : parseStr cs = some (s, rest)) :
    rest.length < cs.length :=
  parseStrAux_length _ cs s rest h

theorem dropWhile_length (p : Char → Bool) (cs : List Char) :
    (cs.dropWhile p).length ≤ cs.length := by
  induction cs with
  | nil => simp
  | cons c cs ih =>
    rw [List.dropWhile_cons]
    split
    · simp only [List.length_cons]; omega
    · exact Nat.le_refl _

theorem parseDigits_length (cs rest : List Char) (h : parseDigits cs = some rest) :
    rest.length < cs.length := by
  unfold parseDigits at h
  split at h
  · rename_i c r
    split at h
    · cases h
      have := dropWhile_length isDigit r
      simp only [List.length_cons]; omega
    · exact absurd h (by simp)
  · exact absurd h (by simp)

theorem parseInt_length (cs rest : List Char) (h : parseInt cs = some rest) :
    rest.length < cs.length := by
  unfold parseInt at h
  split at h
  · rename_i c r
    split at h
    · cases h; simp
    · split at h
      · cases h
        have := dropWhile_length isDigit r
        simp only [List.length_cons]; omega
      · exact absurd h (by simp)
  · exact absurd h (by simp)

theorem parseFrac_length (cs rest : List Char) (h : parseFrac cs = some rest) :
    rest.length ≤ cs.length := by
  unfold parseFrac at h
  split at h
  · have := parseDigits_length _ _ h
    simp only [List.length_cons]; omega
  · cases h; exact Nat.le_refl _

theorem parseExp_length (cs rest : List Char) (h : parseExp cs = some rest) :
    rest.length ≤ cs.length := by
  unfold parseExp at h
  split at h
  · rename_i c r
    split at h
    · split at h
      · rename_i s r1
        split at h
        · have := parseDigits_length _ _ h
          simp only [List.length_cons]; omega
        · have := parseDigits_length _ _ h
          simp only [List.length_cons] at this ⊢; omega
      · exact absurd h (by simp)
    · cases h; exact Nat.le_refl _
  · cases h; exact Nat.le_refl _

theorem parseNum_length (cs rest : List Char) (h : parseNum cs = some rest) :
    rest.length < cs.length := by
  have key : ∀ xs, ((parseInt xs).bind parseFrac).bind parseExp = some rest →
      rest.length < xs.length := by
    intro xs hx
    cases h1 : parseInt xs with
    | none => rw [h1] at hx; exact absurd hx (by simp)
    | some r1 =>
      rw [h1] at hx
      cases h2 : parseFrac r1 with
      | none => simp [h2] at hx
      | some r2 =>
        simp only [Option.some_bind, h2] at hx
        have a := parseInt_length _ _ h1
        have b := parseFrac_length _ _ h2
        have c := parseExp_length _ _ hx
        omega
  unfold parseNum at h
  split at h
  · have := key _ h
    simp only [List.length_cons]; omega
  · exact key _ h

theorem skipWs_cons_length (cs r : List Char) (c : Char) (h : skipWs cs = c :: r) :
    r.length < cs.length := by
  have := skipWs_length cs
  rw [h] at this
  simp only [List.length_cons] at this
  omega

theorem parseValue_fuel_step (n : Nat)
    (ihM : ∀ cs ms rest, parseMembers n cs = some (ms, rest) →
      rest.length < cs.length ∧
        ∀ m, cs.length < m + rest.length → parseMembers m cs = some (ms, rest))
    (ihE : ∀ cs xs rest, parseElems n cs = some (xs, rest) →
      rest.length < cs.length ∧
        ∀ m, cs.length < m + rest.length → parseElems m cs = some (xs, rest))
    (cs : List Char) (v : Json) (rest : List Char)
    (h : parseValue (n + 1) cs = some (v, rest)) :
    rest.length < cs.length ∧
      ∀ m, cs.length < m + rest.length → parseValue m cs = some (v, rest) := by
  rw [parseValue] at h
  split at h
  · exact absurd h (by simp)
  · rename_i c r hs
    have hr := skipWs_cons_length cs r c hs
    split at h
    · -- a string
      rename_i h1
      split at h
      · rename_i s r1 hp
        cases h
        have := parseStr_length _ _ _ hp
        refine ⟨by omega, fun m hm => ?_⟩
        obtain ⟨m1, rfl⟩ : ∃ m1, m = m1 + 1 := ⟨m - 1, by omega⟩
        rw [parseValue]
        simp only [hs]
        rw [if_pos h1]
        simp only [hp]
      · exact absurd h (by simp)
    · rename_i h1
      split at h
      · -- an object
        rename_i h2
        split at h
        · rename_i r1 hb
          cases h
          have := skipWs_cons_length r rest '}' hb
          refine ⟨by omega, fun m hm => ?_⟩
          obtain ⟨m1, rfl⟩ : ∃ m1, m = m1 + 1 := ⟨m - 1, by omega⟩
          rw [parseValue]
          simp only [hs]
          rw [if_neg h1, if_pos h2]
          simp only [hb]
        · rename_i hb
          split at h
          · rename_i ms r1 hp
            cases h
            obtain ⟨hl, hf⟩ := ihM _ _ _ hp
            refine ⟨by omega, fun m hm => ?_⟩
            obtain ⟨m1, rfl⟩ : ∃ m1, m = m1 + 1 := ⟨m - 1, by omega⟩
            rw [parseValue]
            simp only [hs]
            rw [if_neg h1, if_pos h2]
            rw [hf m1 (by omega)]
          · exact absurd h (by simp)
      · rename_i h2
        split at h
        · -- an array
          rename_i h3
          split at h
          · rename_i r1 hb
            cases h
            have := skipWs_cons_length r rest ']' hb
            refine ⟨by omega, fun m hm => ?_⟩
            obtain ⟨m1, rfl⟩ : ∃ m1, m = m1 + 1 := ⟨m - 1, by omega⟩
            rw [parseValue]
            simp only [hs]
            rw [if_neg h1, if_neg h2, if_pos h3]
            simp only [hb]
          · rename_i hb
            split at h
            · rename_i xs r1 hp
              cases h
              obtain ⟨hl, hf⟩ := ihE _ _ _ hp
              refine ⟨by omega, fun m hm => ?_⟩
              obtain ⟨m1, rfl⟩ : ∃ m1, m = m1 + 1 := ⟨m - 1, by omega⟩
              rw [parseValue]
              simp only [hs]
              rw [if_neg h1, if_neg h2, if_pos h3]
              rw [hf m1 (by omega)]
            · exact absurd h (by simp)
        · rename_i h3
          split at h
          · -- true
            rename_i h4
            split at h
            · cases h
              refine ⟨by simp only [List.length_cons] at hr ⊢; omega, fun m hm => ?_⟩
              obtain ⟨m1, rfl⟩ : ∃ m1, m = m1 + 1 := ⟨m - 1, by
                simp only [List.length_cons] at hr; omega⟩
              rw [parseValue]
              simp only [hs]
              rw [if_neg h1, if_neg h2, if_neg h3, if_pos h4]
            · exact absurd h (by simp)
          · rename_i h4
            split at h
            · -- false
              rename_i h5
              split at h
              · cases h
                refine ⟨by simp only [List.length_cons] at hr ⊢; omega, fun m hm => ?_⟩
                obtain ⟨m1, rfl⟩ : ∃ m1, m = m1 + 1 := ⟨m - 1, by
                  simp only [List.length_cons] at hr; omega⟩
                rw [parseValue]
                simp only [hs]
                rw [if_neg h1, if_neg h2, if_neg h3, if_neg h4, if_pos h5]
              · exact absurd h (by simp)
            · rename_i h5
              split at h
              · -- null
                rename_i h6
                split at h
                · cases h
                  refine ⟨by simp only [List.length_cons] at hr ⊢; omega, fun m hm => ?_⟩
                  obtain ⟨m1, rfl⟩ : ∃ m1, m = m1 + 1 := ⟨m - 1, by
                    simp only [List.length_cons] at hr; omega⟩
                  rw [parseValue]
                  simp only [hs]
                  rw [if_neg h1, if_neg h2, if_neg h3, if_neg h4, if_neg h5, if_pos h6]
                · exact absurd h (by simp)
              · -- a number
                rename_i h6
                split at h
                · rename_i r1 hp
                  cases h
                  have := parseNum_length _ _ hp
                  simp only [List.length_cons] at this
                  refine ⟨by omega, fun m hm => ?_⟩
                  obtain ⟨m1, rfl⟩ : ∃ m1, m = m1 + 1 := ⟨m - 1, by omega⟩
                  rw [parseValue]
                  simp only [hs]
                  rw [if_neg h1, if_neg h2, if_neg h3, if_neg h4, if_neg h5, if_neg h6]
                  simp only [hp]
                · exact absurd h (by simp)

theorem parseMembers_fuel_step (n : Nat)
    (ihV : ∀ cs v rest, parseValue n cs = some (v, rest) →
      rest.length < cs.length ∧
        ∀ m, cs.length < m + rest.length → parseValue m cs = some (v, rest))
    (ihM : ∀ cs ms rest, parseMembers n cs = some (ms, rest) →
      rest.length < cs.length ∧
        ∀ m, cs.length < m + rest.length → parseMembers m cs = some (ms, rest))
    (cs : List Char) (ms : List (List Char × Json)) (rest : List Char)
    (h : parseMembers (n + 1) cs = some (ms, rest)) :
    rest.length < cs.length ∧
      ∀ m, cs.length < m + rest.length → parseMembers m cs = some (ms, rest) := by
  rw [parseMembers] at h
  split at h
  · rename_i r hs
    have hr := skipWs_cons_length cs r '"' hs
    split at h
    · exact absurd h (by simp)
    · rename_i k r1 hk
      have hk1 := parseStr_length _ _ _ hk
      split at h
      · rename_i r2 hc
        have hc1 := skipWs_cons_length r1 r2 ':' hc
        split at h
        · exact absurd h (by simp)
        · rename_i v r3 hv
          obtain ⟨hv1, hvf⟩ := ihV _ _ _ hv
          split at h
          · rename_i r4 hsep
            have hsep1 := skipWs_cons_length r3 r4 ',' hsep
            split at h
            · rename_i ms1 r5 hm1
              cases h
              obtain ⟨hl, hf⟩ := ihM _ _ _ hm1
              refine ⟨by omega, fun m hm => ?_⟩
              obtain ⟨m1, rfl⟩ : ∃ m1, m = m1 + 1 := ⟨m - 1, by omega⟩
              rw [parseMembers]
              simp only [hs, hk, hc, hvf m1 (by omega), hsep, hf m1 (by omega)]
            · exact absurd h (by simp)
          · rename_i r4 hsep
            have hsep1 := skipWs_cons_length r3 r4 '}' hsep
            cases h
            refine ⟨by omega, fun m hm => ?_⟩
            obtain ⟨m1, rfl⟩ : ∃ m1, m = m1 + 1 := ⟨m - 1, by omega⟩
            rw [parseMembers]
            simp only [hs, hk, hc, hvf m1 (by omega), hsep]
          · exact absurd h (by simp)
      · exact absurd h (by simp)
  · exact absurd h (by simp)

theorem parseElems_fuel_step (n : Nat)
    (ihV : ∀ cs v rest, parseValue n cs = some (v, rest) →
      rest.length < cs.length ∧
        ∀ m, cs.length < m + rest.length → parseValue m cs = some (v, rest))
    (ihE : ∀ cs xs rest, parseElems n cs = some (xs, rest) →
      rest.length < cs.length ∧
        ∀ m, cs.length < m + rest.length → parseElems m cs = some (xs, rest))
    (cs : List Char) (xs : List Json) (rest : List Char)
    (h : parseElems (n + 1) cs = some (xs, rest)) :
    rest.length < cs.length ∧
      ∀ m, cs.length < m + rest.length → parseElems m cs = some (xs, rest) := by
  rw [parseElems] at h
  split at h
  · exact absurd h (by simp)
  · rename_i v r1 hv
    obtain ⟨hv1, hvf⟩ := ihV _ _ _ hv
    split at h
    · rename_i r2 hsep
      have hsep1 := skipWs_cons_length r1 r2 ',' hsep
      split at h
      · rename_i xs1 r3 he
        cases h
        obtain ⟨hl, hf⟩ := ihE _ _ _ he
        refine ⟨by omega, fun m hm => ?_⟩
        obtain ⟨m1, rfl⟩ : ∃ m1, m = m1 + 1 := ⟨m - 1, by omega⟩
        rw [parseElems]
        simp only [hvf m1 (by omega), hsep, hf m1 (by omega)]
      · exact absurd h (by simp)
    · rename_i r2 hsep
      have hsep1 := skipWs_cons_length r1 r2 ']' hsep
      cases h
      refine ⟨by omega, fun m hm => ?_⟩
      obtain ⟨m1, rfl⟩ : ∃ m1, m = m1 + 1 := ⟨m - 1, by omega⟩
      rw [parseElems]
      simp only [hvf m1 (by omega), hsep]
    · exact absurd h (by simp)

theorem parse_fuel (n : Nat) :
    (∀ cs v rest, parseValue n cs = some (v, rest) →
      rest.length < cs.length ∧
        ∀ m, cs.length < m + rest.length → parseValue m cs = some (v, rest)) ∧
    (∀ cs ms rest, parseMembers n cs = some (ms, rest) →
      rest.length < cs.length ∧
        ∀ m, cs.length < m + rest.length → parseMembers m cs = some (ms, rest)) ∧
    (∀ cs xs rest, parseElems n cs = some (xs, rest) →
      rest.length < cs.length ∧
        ∀ m, cs.length < m + rest.length → parseElems m cs = some (xs, rest)) := by
  induction n with
  | zero =>
    refine ⟨fun cs v rest h => ?_, fun cs ms rest h => ?_, fun cs xs rest h => ?_⟩
    · exact absurd h (by simp [parseValue])
    · exact absurd h (by simp [parseMembers])
    · exact absurd h (by simp [parseElems])
  | succ n ih =>
    obtain ⟨ihV, ihM, ihE⟩ := ih
    exact ⟨parseValue_fuel_step n ihM ihE, parseMembers_fuel_step n ihV ihM,
      parseElems_fuel_step n ihV ihE⟩

/-- The bound that `parse` passes to `parseValue` never decides: a value that
some bound yields is the value `parse` finds. -/
theorem parse_of_parseValue (n : Nat) (cs : List Char) (v : Json) (rest : List Char)
    (h : parseValue n cs = some (v, rest)) (hrest : skipWs rest = []) :
    parse cs = some v := by
  obtain ⟨_, hf⟩ := (parse_fuel n).1 cs v rest h
  unfold parse
  rw [hf (cs.length + 1) (by omega)]
  simp only [hrest, if_true]

theorem parseStrAux_fuel (n : Nat) :
    ∀ (cs s rest : List Char), parseStrAux n cs = some (s, rest) →
      ∀ m, cs.length ≤ m + rest.length → parseStrAux m cs = some (s, rest) := by
  induction n with
  | zero => intro cs s rest h; exact absurd h (by simp [parseStrAux])
  | succ n ih =>
    intro cs s rest h m hm
    have hlen := parseStrAux_length _ _ _ _ h
    obtain ⟨m1, rfl⟩ : ∃ m1, m = m1 + 1 := ⟨m - 1, by omega⟩
    cases cs with
    | nil => exact absurd h (by simp [parseStrAux])
    | cons c r =>
      rw [parseStrAux] at h ⊢
      split at h
      · rename_i h1
        rw [if_pos h1]
        exact h
      · rename_i h1
        rw [if_neg h1]
        split at h
        · rename_i h2
          rw [if_pos h2]
          split at h
          · rename_i ch rest1 he
            obtain ⟨s1, hs1⟩ := consChar_eq_some _ _ _ _ h
            have hl1 := readEscape_length _ _ _ he
            simp only [List.length_cons] at hm
            rw [hs1] at h
            simp only [ih _ _ _ hs1 m1 (by omega)]
            exact h
          · exact absurd h (by simp)
        · rename_i h2
          rw [if_neg h2]
          split at h
          · exact absurd h (by simp)
          · rename_i h3
            rw [if_neg h3]
            obtain ⟨s1, hs1⟩ := consChar_eq_some _ _ _ _ h
            simp only [List.length_cons] at hm
            rw [hs1] at h
            rw [ih _ _ _ hs1 m1 (by omega)]
            exact h

/-- The bound that `parseStr` passes to `parseStrAux` never decides either. -/
theorem parseStr_of_parseStrAux (n : Nat) (cs s rest : List Char)
    (h : parseStrAux n cs = some (s, rest)) : parseStr cs = some (s, rest) :=
  parseStrAux_fuel n cs s rest h cs.length (by omega)

/-- A member as `json.Marshal` writes it: no whitespace anywhere. -/
theorem encodeMembers_eq (ms : List (String × String)) :
    encodeMembers ms = spacedMembers (ms.map fun kv => ⟨kv.1, kv.2, [], [], [], []⟩) := by
  induction ms with
  | nil => rfl
  | cons kv ms ih =>
    obtain ⟨k, v⟩ := kv
    cases ms with
    | nil => simp [encodeMembers, spacedMembers, SpacedMember.text]
    | cons kv1 ms1 =>
      simp only [encodeMembers, List.map_cons, spacedMembers, SpacedMember.text] at ih ⊢
      rw [ih]
      simp

theorem marshal_eq (c : GcpCredentials) :
    Marshal c =
      objectText [] ((credentialMembers c).map fun kv => ⟨kv.1, kv.2, [], [], [], []⟩) [] := by
  unfold Marshal objectText
  rw [encodeMembers_eq]
  rfl

theorem parse_marshal (c : GcpCredentials) :
    parse (Marshal c).data =
      some (Json.obj ((credentialMembers c).map fun kv => (kv.1.data, Json.str kv.2.data))) := by
  rw [marshal_eq, parse_objectText [] [] _ rfl rfl]
  · simp only [List.map_map]
    rfl
  · intro m hm
    simp only [List.mem_map] at hm
    obtain ⟨kv, _, rfl⟩ := hm
    rfl

theorem fieldIndex_0 :
    fieldIndex ['t', 'y', 'p', 'e'] = some 0 := by
  decide

theorem fieldIndex_1 :
    fieldIndex ['p', 'r', 'o', 'j', 'e', 'c', 't', '_', 'i', 'd'] = some 1 := by
  decide

theorem fieldIndex_2 :
    fieldIndex ['p', 'r', 'i', 'v', 'a', 't', 'e', '_', 'k', 'e', 'y', '_', 'i', 'd'] = some 2 := by
  decide

theorem fieldIndex_3 :
    fieldIndex ['p', 'r', 'i', 'v', 'a', 't', 'e', '_', 'k', 'e', 'y'] = some 3 := by
  decide

theorem fieldIndex_4 :
    fieldIndex ['c', 'l', 'i', 'e', 'n', 't', '_', 'e', 'm', 'a', 'i', 'l'] = some 4 := by
  decide

theorem fieldIndex_5 :
    fieldIndex ['c', 'l', 'i', 'e', 'n', 't', '_', 'i', 'd'] = some 5 := by
  decide

theorem fieldIndex_6 :
    fieldIndex ['a', 'u', 't', 'h', '_', 'u', 'r', 'i'] = some 6 := by
  decide

theorem fieldIndex_7 :
    fieldIndex ['t', 'o', 'k', 'e', 'n', '_', 'u', 'r', 'i'] = some 7 := by
  decide

theorem fieldIndex_8 :
    fieldIndex ['a', 'u', 't', 'h', '_', 'p', 'r', 'o', 'v', 'i', 'd', 'e', 'r', '_', 'x', '5', '0', '9', '_', 'c', 'e', 'r', 't', '_', 'u', 'r', 'l'] = some 8 := by
  decide

theorem fieldIndex_9 :
    fieldIndex ['c', 'l', 'i', 'e', 'n', 't', '_', 'x', '5', '0', '9', '_', 'c', 'e', 'r', 't', '_', 'u', 'r', 'l'] = some 9 := by
  decide

theorem string_mk_data (s : String) : String.mk s.data = s := rfl

theorem unmarshal_marshal (c dst : GcpCredentials) : Unmarshal (Marshal c) dst = (c, none) := by
  unfold Unmarshal
  rw [parse_marshal]
  simp only [credentialMembers, List.map_cons, List.map_nil, List.foldl_cons, List.foldl_nil,
    decodeMember, fieldIndex_0, fieldIndex_1, fieldIndex_2, fieldIndex_3, fieldIndex_4, fieldIndex_5, fieldIndex_6, fieldIndex_7, fieldIndex_8, fieldIndex_9, setField, string_mk_data]

theorem gcpOfBlock_save (v : Gcp) :
    gcpOfBlock (storeBlock gcpSchema (saveCloudAccountVal (Obj.gcp v))) = v := by
  have hg : blockStrings (storeBlock gcpSchema (saveCloudAccountVal (Obj.gcp v))) "group_ids"
      = v.Account.GroupIds := blockStrings_list _ _ _ rfl
  have hc : blockString (storeBlock gcpSchema (saveCloudAccountVal (Obj.gcp v)))
      "credentials_json" "" = Marshal v.Credentials := rfl
  unfold gcpOfBlock
  rw [hg, hc, unmarshal_marshal]
  rfl

/-! ## Decoding the members of an object: order does not matter -/

theorem decodeMember_str (acc : GcpCredentials × Option UnmarshalError) (k s : List Char) :
    decodeMember acc (k, Json.str s) =
      match fieldIndex k with
      | none => acc
      | some i => (setField acc.1 i (String.mk s), acc.2) := by
  unfold decodeMember
  cases fieldIndex k <;> rfl

theorem setField_comm (c : GcpCredentials) (i j : Nat) (a b : String) (h : i ≠ j) :
    setField (setField c i a) j b = setField (setField c j b) i a := by
  unfold setField
  split <;> split <;> first | rfl | exact absurd rfl h

theorem decodeMember_none (acc : GcpCredentials × Option UnmarshalError)
    (m : List Char × Json) (h : fieldIndex m.1 = none) : decodeMember acc m = acc := by
  unfold decodeMember
  rw [h]

theorem decodeMember_comm_any (z : GcpCredentials × Option UnmarshalError)
    (x y : List Char × Json)
    (h : ∀ i, fieldIndex x.1 = some i → fieldIndex y.1 = some i → x = y) :
    decodeMember (decodeMember z x) y = decodeMember (decodeMember z y) x := by
  cases hx : fieldIndex x.1 with
  | none => rw [decodeMember_none _ x hx, decodeMember_none _ x hx]
  | some i =>
    cases hy : fieldIndex y.1 with
    | none => rw [decodeMember_none _ y hy, decodeMember_none _ y hy]
    | some j =>
      by_cases hij : i = j
      · subst hij
        rw [h i hx hy]
      · obtain ⟨c, e⟩ := z
        obtain ⟨kx, vx⟩ := x
        obtain ⟨ky, vy⟩ := y
        simp only at hx hy
        cases vx <;> cases vy <;> cases e <;>
          simp only [decodeMember, hx, hy, setField_comm c i j _ _ hij]

theorem nodup_filterMap_inj {α β : Type} (f : α → Option β) (l : List α) :
    (l.filterMap f).Nodup → ∀ x ∈ l, ∀ y ∈ l, ∀ i, f x = some i → f y = some i → x = y := by
  induction l with
  | nil => intro _ x hx; exact absurd hx (List.not_mem_nil _)
  | cons a l ih =>
    intro hnd x hx y hy i hfx hfy
    cases hfa : f a with
    | none =>
      rw [List.filterMap_cons_none hfa] at hnd
      have hx' : x ∈ l := by
        rcases List.mem_cons.1 hx with h | h
        · subst h; rw [hfa] at hfx; exact absurd hfx (by simp)
        · exact h
      have hy' : y ∈ l := by
        rcases List.mem_cons.1 hy with h | h
        · subst h; rw [hfa] at hfy; exact absurd hfy (by simp)
        · exact h
      exact ih hnd x hx' y hy' i hfx hfy
    | some b =>
      rw [List.filterMap_cons_some hfa, List.nodup_cons] at hnd
      rcases List.mem_cons.1 hx with h | h <;> rcases List.mem_cons.1 hy with h' | h'
      · rw [h, h']
      · subst h
        rw [hfa] at hfx
        have hb : b = i := by simpa using hfx
        subst hb
        exact absurd (List.mem_filterMap.2 ⟨y, h', hfy⟩) hnd.1
      · subst h'
        rw [hfa] at hfy
        have hb : b = i := by simpa using hfy
        subst hb
        exact absurd (List.mem_filterMap.2 ⟨x, h, hfx⟩) hnd.1
      · exact ih hnd.2 x h y h' i hfx hfy

theorem foldl_decodeMember_snd (ms : List (List Char × List Char))
    (acc : GcpCredentials × Option UnmarshalError) :
    ((ms.map fun kv => (kv.1, Json.str kv.2)).foldl decodeMember acc).2 = acc.2 := by
  induction ms generalizing acc with
  | nil => rfl
  | cons kv ms ih =>
    simp only [List.map_cons, List.foldl_cons]
    rw [ih, decodeMember_str]
    cases fieldIndex kv.1 <;> rfl

theorem foldl_decodeMember_perm_any (l1 l2 : List (List Char × Json)) (hp : l1.Perm l2)
    (hnd : (l1.filterMap fun m => fieldIndex m.1).Nodup)
    (acc : GcpCredentials × Option UnmarshalError) :
    l1.foldl decodeMember acc = l2.foldl decodeMember acc := by
  apply List.Perm.foldl_eq' hp
  intro x hx y hy z
  exact decodeMember_comm_any z x y
    (nodup_filterMap_inj (fun m : List Char × Json => fieldIndex m.1) l1 hnd x hx y hy)

theorem unmarshal_objectText (lead trail : List Char) (ms : List SpacedMember)
    (hl : lead.all isWs = true) (ht : trail.all isWs = true)
    (hws : ∀ m ∈ ms, m.wsOk = true) (dst : GcpCredentials) :
    Unmarshal (objectText lead ms trail) dst =
      ((ms.map fun m => (m.key.data, m.value.data)).map
        fun kv => (kv.1, Json.str kv.2)).foldl decodeMember (dst, none) := by
  unfold Unmarshal
  rw [parse_objectText lead trail ms hl ht hws]
  simp only [List.map_map]
  rfl

theorem gcpCredentialsMatch_of_eq (k old new : String) (d : ResourceData) (p : GcpCredentials)
    (h1 : Unmarshal old GcpCredentials.zero = (p, none))
    (h2 : Unmarshal new GcpCredentials.zero = (p, none)) :
    gcpCredentialsMatch k old new d = true := by
  simp [gcpCredentialsMatch, h1, h2]

theorem gcpCredentialsMatch_perm (k old new : String) (d : ResourceData)
    (ms1 ms2 : List (List Char × Json))
    (h1 : parse old.data = some (Json.obj ms1)) (h2 : parse new.data = some (Json.obj ms2))
    (hp : ms1.Perm ms2) (hnd : (ms1.filterMap fun m => fieldIndex m.1).Nodup)
    (he : (Unmarshal old GcpCredentials.zero).2 = none) :
    gcpCredentialsMatch k old new d = true := by
  have e1 : Unmarshal old GcpCredentials.zero =
      ms1.foldl decodeMember (GcpCredentials.zero, none) := by
    unfold Unmarshal; rw [h1]
  have e2 : Unmarshal new GcpCredentials.zero =
      ms1.foldl decodeMember (GcpCredentials.zero, none) := by
    unfold Unmarshal; rw [h2, foldl_decodeMember_perm_any ms1 ms2 hp hnd]
  rw [e1] at he
  exact gcpCredentialsMatch_of_eq k old new d _ (e1.trans (Prod.ext rfl he))
    (e2.trans (Prod.ext rfl he))

theorem gcpCredentialsMatch_objectText (k : String) (d : ResourceData)
    (lead1 trail1 lead2 trail2 : List Char) (ms1 ms2 : List SpacedMember)
    (hl1 : lead1.all isWs = true) (ht1 : trail1.all isWs = true)
    (hl2 : lead2.all isWs = true) (ht2 : trail2.all isWs = true)
    (hws1 : ∀ m ∈ ms1, m.wsOk = true) (hws2 : ∀ m ∈ ms2, m.wsOk = true)
    (hp : (ms1.map fun m => (m.key, m.value)).Perm (ms2.map fun m => (m.key, m.value)))
    (hnd : (ms1.filterMap fun m => fieldIndex m.key.data).Nodup) :
    gcpCredentialsMatch k (objectText lead1 ms1 trail1) (objectText lead2 ms2 trail2) d = true := by
  have hp1 : (ms1.map fun m => (m.key.data, Json.str m.value.data)).Perm
      (ms2.map fun m => (m.key.data, Json.str m.value.data)) := by
    have := hp.map (fun kv : String × String => (kv.1.data, Json.str kv.2.data))
    simpa only [List.map_map] using this
  have hnd1 : ((ms1.map fun m => (m.key.data, Json.str m.value.data)).filterMap
      fun m => fieldIndex m.1).Nodup := by
    rw [List.filterMap_map]
    exact hnd
  have he : (Unmarshal (objectText lead1 ms1 trail1) GcpCredentials.zero).2 = none := by
    rw [unmarshal_objectText lead1 trail1 ms1 hl1 ht1 hws1]
    exact foldl_decodeMember_snd _ _
  exact gcpCredentialsMatch_perm k _ _ d _ _
    (parse_objectText lead1 trail1 ms1 hl1 ht1 hws1)
    (parse_objectText lead2 trail2 ms2 hl2 ht2 hws2) hp1 hnd1 he

/-! ## Identity strings -/

theorem splitFirst_append (sep : Char) (a b : List Char) (h : sep ∉ a) :
    splitFirst sep (a ++ sep :: b) = some (a, b) := by
  induction a with
  | nil => simp [splitFirst]
  | cons c a ih =>
    have hc : c ≠ sep := fun e => h (e ▸ List.mem_cons_self _ _)
    have ha : sep ∉ a := fun e => h (List.mem_cons_of_mem _ e)
    simp [splitFirst, hc, ih ha]

theorem idToTwoStrings_compose (sep : Char) (a b : String) (h : sep ∉ a.data) :
    IdToTwoStrings sep (TwoStringsToId sep a b) = some (a, b) := by
  unfold IdToTwoStrings TwoStringsToId
  simp only [splitFirst_append sep a.data b.data h]

/-! ## The lifecycle functions -/

theorem readCloudAccount_of_id {σ : Type} (sep : Char) (c : Client σ) (d : ResourceData)
    (w : World σ) (cloudType id : String) (h : IdToTwoStrings sep d.Id = some (cloudType, id)) :
    readCloudAccount sep c d w =
      match (c.Get w.state cloudType id).1 with
      | Except.error err =>
        if err = Error.ObjectNotFoundError then
          some ⟨none, d.SetId "", ⟨(c.Get w.state cloudType id).2,
            w.calls ++ [Call.Get cloudType id]⟩⟩
        else some ⟨some err, d, ⟨(c.Get w.state cloudType id).2,
            w.calls ++ [Call.Get cloudType id]⟩⟩
      | Except.ok obj =>
        some ⟨none, saveCloudAccount d cloudType obj, ⟨(c.Get w.state cloudType id).2,
            w.calls ++ [Call.Get cloudType id]⟩⟩ := by
  unfold readCloudAccount
  rw [h]
  simp only [World.Get]
  cases (c.Get w.state cloudType id).1 <;> rfl

theorem readCloudAccount_malformed {σ : Type} (sep : Char) (c : Client σ) (d : ResourceData)
    (w : World σ) (h : IdToTwoStrings sep d.Id = none) : readCloudAccount sep c d w = none := by
  unfold readCloudAccount
  rw [h]

theorem deleteCloudAccountAction_malformed {σ : Type} (sep : Char) (c : Client σ)
    (d : ResourceData) (w : World σ) (h : IdToTwoStrings sep d.Id = none) :
    deleteCloudAccountAction sep c d w = none := by
  unfold deleteCloudAccountAction
  rw [h]

/-! ## The claims -/

/-- C1: for each of the four kinds of account and every record `v` of that kind,
whatever the tree held before, `parseCloudAccount` applied to the tree that
`saveCloudAccount` produces from `v` under the cloud type of `v` returns that
cloud type, the name of `v` and `v` itself, every field included: the list of
group ids and, for GCP, the ten credential fields that travel through the JSON
text. -/
theorem parseCloudAccount_saveCloudAccount (d : ResourceData) :
    (∀ v : Aws, parseCloudAccount (saveCloudAccount d TypeAws (Obj.aws v)) =
        some (TypeAws, v.Name, Obj.aws v)) ∧
    (∀ v : Azure, parseCloudAccount (saveCloudAccount d TypeAzure (Obj.azure v)) =
        some (TypeAzure, v.Account.Name, Obj.azure v)) ∧
    (∀ v : Gcp, parseCloudAccount (saveCloudAccount d TypeGcp (Obj.gcp v)) =
        some (TypeGcp, v.Account.Name, Obj.gcp v)) ∧
    (∀ v : Alibaba, parseCloudAccount (saveCloudAccount d TypeAlibaba (Obj.alibaba v)) =
        some (TypeAlibaba, v.Name, Obj.alibaba v)) := by
  refine ⟨fun v => ?_, fun v => ?_, fun v => ?_, fun v => ?_⟩
  · rw [save_aws, parse_aws _ _ [] rfl, awsOfBlock_save]; rfl
  · rw [save_azure, parse_azure _ _ [] rfl rfl, azureOfBlock_save]; rfl
  · rw [save_gcp, parse_gcp _ _ [] rfl rfl rfl, gcpOfBlock_save]; rfl
  · rw [save_alibaba, parse_alibaba _ _ [] rfl rfl rfl rfl, alibabaOfBlock_save]; rfl

/-- C2: when `update_on_create` is false and the external `Create` answers
`DuplicateCloudAccountError` for the account decoded from the configuration,
`createCloudAccount` returns that error, the only call it issues is that
`Create` (no `Update`, no `Identify`, no `Get`), and the tree, the stored
identity included, is as before. -/
theorem createCloudAccount_duplicate_no_update {σ : Type} (sep : Char) (c : Client σ)
    (d : ResourceData) (w : World σ) (cloudType name : String) (obj : Obj)
    (hp : parseCloudAccount d = some (cloudType, name, obj))
    (hu : d.update_on_create = false)
    (hc : (c.Create w.state obj).1 = some Error.DuplicateCloudAccountError) :
    createCloudAccount sep c d w =
      some ⟨some Error.DuplicateCloudAccountError, d,
        ⟨(c.Create w.state obj).2, w.calls ++ [Call.Create obj]⟩⟩ := by
  unfold createCloudAccount
  rw [hp]
  simp only [World.Create, hc, hu]
  rfl

/-- Witness of C2: the sample AWS configuration with `update_on_create = false` on
a platform that holds the account already. -/
theorem createCloudAccount_duplicate_no_update_witness :
    parseCloudAccount (awsTree false) = some ("aws", "prod", Obj.aws sampleAws) ∧
    (awsTree false).update_on_create = false ∧
    (renamedPlatform.Create startWorld.state (Obj.aws sampleAws)).1 =
      some Error.DuplicateCloudAccountError ∧
    createCloudAccount ':' renamedPlatform (awsTree false) startWorld =
      some ⟨some Error.DuplicateCloudAccountError, awsTree false,
        ⟨(), [Call.Create (Obj.aws sampleAws)]⟩⟩ :=
  have hp : parseCloudAccount (awsTree false) = some ("aws", "prod", Obj.aws sampleAws) := by
    rw [parse_aws (awsTree false) _ [] rfl]
    rw [show awsOfBlock (saveCloudAccountVal (Obj.aws sampleAws)) = sampleAws from rfl]
    rfl
  ⟨hp, rfl, rfl,
    createCloudAccount_duplicate_no_update ':' renamedPlatform (awsTree false) startWorld
      "aws" "prod" (Obj.aws sampleAws) hp rfl rfl⟩

/-- C3: when `update_on_create` is true, the external `Create` answers
`DuplicateCloudAccountError`, the `Update` that follows succeeds and `Identify`
then answers `ObjectNotFoundError`, `createCloudAccount` does not return that
error: it takes the id from the `accountId` of the submitted record (`GetID`),
stores `TwoStringsToId(cloudType, accountId)` as the identity and goes on to the
read, so that its result is the result of `readCloudAccount` on the tree with
that identity, after exactly the calls `Create`, `Update`, `Identify`. When the
`Get` of that read returns the account, the whole operation returns no error,
the identity stays stored and the calls were `Create`, `Update`, `Identify`,
`Get(cloudType, accountId)`. The only error the whole operation can still
return is an error, other than `ObjectNotFoundError`, of the `Get` of that
read. -/
theorem createCloudAccount_update_identify_notFound {σ : Type} (sep : Char) (c : Client σ)
    (d : ResourceData) (w : World σ) (cloudType name accountId : String) (obj : Obj)
    (hp : parseCloudAccount d = some (cloudType, name, obj))
    (hu : d.update_on_create = true)
    (hc : (c.Create w.state obj).1 = some Error.DuplicateCloudAccountError)
    (hup : (c.Update (c.Create w.state obj).2 obj).1 = none)
    (hid : (c.Identify (c.Update (c.Create w.state obj).2 obj).2 cloudType name).1 =
      Except.error Error.ObjectNotFoundError)
    (hobj : GetID obj = Except.ok accountId) :
    createCloudAccount sep c d w =
        readCloudAccount sep c (d.SetId (TwoStringsToId sep cloudType accountId))
          ⟨(c.Identify (c.Update (c.Create w.state obj).2 obj).2 cloudType name).2,
            w.calls ++ [Call.Create obj, Call.Update obj, Call.Identify cloudType name]⟩ ∧
    (∀ found : Obj, sep ∉ cloudType.data →
      (c.Get (c.Identify (c.Update (c.Create w.state obj).2 obj).2 cloudType name).2
        cloudType accountId).1 = Except.ok found →
      createCloudAccount sep c d w =
        some ⟨none,
          saveCloudAccount (d.SetId (TwoStringsToId sep cloudType accountId)) cloudType found,
          ⟨(c.Get (c.Identify (c.Update (c.Create w.state obj).2 obj).2 cloudType name).2
              cloudType accountId).2,
            w.calls ++ [Call.Create obj, Call.Update obj, Call.Identify cloudType name,
              Call.Get cloudType accountId]⟩⟩) ∧
    (sep ∉ cloudType.data →
      ∃ out : Outcome σ, createCloudAccount sep c d w = some out ∧
        ∀ e, out.err = some e →
          e ≠ Error.ObjectNotFoundError ∧
          (c.Get (c.Identify (c.Update (c.Create w.state obj).2 obj).2 cloudType name).2
            cloudType accountId).1 = Except.error e) := by
  have main : createCloudAccount sep c d w =
      readCloudAccount sep c (d.SetId (TwoStringsToId sep cloudType accountId))
        ⟨(c.Identify (c.Update (c.Create w.state obj).2 obj).2 cloudType name).2,
          w.calls ++ [Call.Create obj, Call.Update obj, Call.Identify cloudType name]⟩ := by
    unfold createCloudAccount
    rw [hp]
    simp only [World.Create, World.Update, hc, hu, hup, createCloudAccountIdentify,
      World.Identify, hid, hobj, and_self, if_true, List.append_assoc, List.cons_append,
      List.nil_append]
  refine ⟨main, fun found hsep hget => ?_, fun hsep => ?_⟩
  · rw [main, readCloudAccount_of_id sep c (d.SetId (TwoStringsToId sep cloudType accountId)) _
      cloudType accountId (idToTwoStrings_compose sep cloudType accountId hsep)]
    simp only [hget, List.append_assoc, List.cons_append, List.nil_append]
  · rw [main, readCloudAccount_of_id sep c (d.SetId (TwoStringsToId sep cloudType accountId)) _
      cloudType accountId (idToTwoStrings_compose sep cloudType accountId hsep)]
    cases hg : (c.Get (c.Identify (c.Update (c.Create w.state obj).2 obj).2 cloudType name).2
        cloudType accountId).1 with
    | ok found => exact ⟨_, rfl, fun e he => absurd he (by simp)⟩
    | error e0 =>
      by_cases he0 : e0 = Error.ObjectNotFoundError
      · refine ⟨_, by simp only [he0, if_true]; rfl, fun e he => absurd he (by simp)⟩
      · refine ⟨_, by simp only [he0, if_false]; rfl, fun e he => ?_⟩
        cases Option.some.inj he
        exact ⟨he0, rfl⟩

/-- Witness of C3: the sample AWS configuration with `update_on_create = true` on
a platform that holds the account already under another name. -/
theorem createCloudAccount_update_identify_notFound_witness :
    createCloudAccount ':' renamedPlatform (awsTree true) startWorld =
      some ⟨none,
        saveCloudAccount ((awsTree true).SetId "aws:123456789012") "aws" (Obj.aws sampleAws),
        ⟨(), [Call.Create (Obj.aws sampleAws), Call.Update (Obj.aws sampleAws),
          Call.Identify "aws" "prod", Call.Get "aws" "123456789012"]⟩⟩ :=
  have hp : parseCloudAccount (awsTree true) = some ("aws", "prod", Obj.aws sampleAws) := by
    rw [parse_aws (awsTree true) _ [] rfl]
    rw [show awsOfBlock (saveCloudAccountVal (Obj.aws sampleAws)) = sampleAws from rfl]
    rfl
  (createCloudAccount_update_identify_notFound ':' renamedPlatform (awsTree true) startWorld
    "aws" "prod" "123456789012" (Obj.aws sampleAws) hp rfl rfl rfl rfl rfl).2.1
    (Obj.aws sampleAws) (by decide) rfl

/-- C4: for a stored identity `(cloudType, id)` and either value of
`disable_on_destroy`, `deleteCloudAccountAction` issues exactly one external
call, `Disable(cloudType, id)` when the flag is true and `Delete(cloudType, id)`
otherwise. When that call succeeds or answers `ObjectNotFoundError` the function
returns no error and the tree is as before except for the stored identity, which
is the empty string; when it
answers any other error the function returns that error and the tree, the
stored identity included, is as before. -/
theorem deleteCloudAccountAction_teardown {σ : Type} (sep : Char) (c : Client σ)
    (d : ResourceData) (w : World σ) (cloudType id : String)
    (hid : IdToTwoStrings sep d.Id = some (cloudType, id)) :
    ∃ out : Outcome σ, deleteCloudAccountAction sep c d w = some out ∧
      (d.disable_on_destroy = true →
        out.w = ⟨(c.Disable w.state cloudType id).2, w.calls ++ [Call.Disable cloudType id]⟩ ∧
        ((c.Disable w.state cloudType id).1 = none ∨
          (c.Disable w.state cloudType id).1 = some Error.ObjectNotFoundError →
            out.err = none ∧ out.d = { d with id := "" }) ∧
        (∀ e, (c.Disable w.state cloudType id).1 = some e → e ≠ Error.ObjectNotFoundError →
            out.err = some e ∧ out.d = d)) ∧
      (d.disable_on_destroy = false →
        out.w = ⟨(c.Delete w.state cloudType id).2, w.calls ++ [Call.Delete cloudType id]⟩ ∧
        ((c.Delete w.state cloudType id).1 = none ∨
          (c.Delete w.state cloudType id).1 = some Error.ObjectNotFoundError →
            out.err = none ∧ out.d = { d with id := "" }) ∧
        (∀ e, (c.Delete w.state cloudType id).1 = some e → e ≠ Error.ObjectNotFoundError →
            out.err = some e ∧ out.d = d)) := by
  unfold deleteCloudAccountAction
  rw [hid]
  cases hdd : d.disable_on_destroy
  · simp only [World.Delete, Bool.false_eq_true, if_false]
    cases hr : (c.Delete w.state cloudType id).1 with
    | none => exact ⟨_, rfl, by simp [ResourceData.SetId, hdd], by simp [ResourceData.SetId, hdd]⟩
    | some e =>
      by_cases he : e = Error.ObjectNotFoundError
      · subst he
        exact ⟨_, rfl, by simp [ResourceData.SetId, hdd], by simp [ResourceData.SetId, hdd]⟩
      · refine ⟨⟨some e, d, _⟩, by simp only [ne_eq, he, not_false_eq_true, if_true], by simp,
          fun _ => ⟨rfl, ?_, ?_⟩⟩
        · intro h
          rcases h with h | h
          · exact absurd h (by simp)
          · exact absurd (Option.some.inj h) he
        · intro e' h' _
          cases Option.some.inj h'
          exact ⟨rfl, rfl⟩
  · simp only [World.Disable, if_true]
    cases hr : (c.Disable w.state cloudType id).1 with
    | none => exact ⟨_, rfl, by simp [ResourceData.SetId, hdd], by simp [ResourceData.SetId, hdd]⟩
    | some e =>
      by_cases he : e = Error.ObjectNotFoundError
      · subst he
        exact ⟨_, rfl, by simp [ResourceData.SetId, hdd], by simp [ResourceData.SetId, hdd]⟩
      · refine ⟨⟨some e, d, _⟩, by simp only [ne_eq, he, not_false_eq_true, if_true],
          fun _ => ⟨rfl, ?_, ?_⟩, by simp⟩
        · intro h
          rcases h with h | h
          · exact absurd h (by simp)
          · exact absurd (Option.some.inj h) he
        · intro e' h' _
          cases Option.some.inj h'
          exact ⟨rfl, rfl⟩

/-- Witness of C4: the stored identity of the sample account, with
`disable_on_destroy = true` on a platform where the account is gone, and with
`disable_on_destroy = false` on a platform that is out of reach. -/
theorem deleteCloudAccountAction_teardown_witness :
    IdToTwoStrings ':' (storedTree true).Id = some ("aws", "123456789012") ∧
    (∃ out : Outcome Unit,
      deleteCloudAccountAction ':' renamedPlatform (storedTree true) startWorld = some out ∧
      out.w = ⟨(), [Call.Disable "aws" "123456789012"]⟩ ∧
      out.err = none ∧ out.d = { storedTree true with id := "" }) ∧
    (∃ out : Outcome Unit,
      deleteCloudAccountAction ':' brokenPlatform (storedTree false) startWorld = some out ∧
      out.w = ⟨(), [Call.Delete "aws" "123456789012"]⟩ ∧
      out.err = some (Error.other "timeout") ∧ out.d = storedTree false) := by
  obtain ⟨out, h, hT, _⟩ := deleteCloudAccountAction_teardown ':' renamedPlatform
    (storedTree true) startWorld "aws" "123456789012" rfl
  obtain ⟨hw, hnf, _⟩ := hT rfl
  obtain ⟨out2, h2, _, hF⟩ := deleteCloudAccountAction_teardown ':' brokenPlatform
    (storedTree false) startWorld "aws" "123456789012" rfl
  obtain ⟨hw2, _, herr⟩ := hF rfl
  exact ⟨rfl, ⟨out, h, hw, hnf (Or.inr rfl)⟩,
    ⟨out2, h2, hw2, herr (Error.other "timeout") rfl (by decide)⟩⟩

/-- C5: for a stored identity `(cloudType, id)`, when the external `Get` answers
`ObjectNotFoundError`, `readCloudAccount` returns no error and sets the stored
identity to the empty string, the four blocks and the flags being as before;
when `Get` answers any other error, `readCloudAccount` returns that error and
the tree, the stored identity and the four blocks included, is as before. In
both cases the only call is that `Get`. -/
theorem readCloudAccount_get_error {σ : Type} (sep : Char) (c : Client σ)
    (d : ResourceData) (w : World σ) (cloudType id : String)
    (hid : IdToTwoStrings sep d.Id = some (cloudType, id)) :
    ((c.Get w.state cloudType id).1 = Except.error Error.ObjectNotFoundError →
      readCloudAccount sep c d w =
        some ⟨none, { d with id := "" },
          ⟨(c.Get w.state cloudType id).2, w.calls ++ [Call.Get cloudType id]⟩⟩) ∧
    (∀ e, (c.Get w.state cloudType id).1 = Except.error e → e ≠ Error.ObjectNotFoundError →
      readCloudAccount sep c d w =
        some ⟨some e, d,
          ⟨(c.Get w.state cloudType id).2, w.calls ++ [Call.Get cloudType id]⟩⟩) := by
  rw [readCloudAccount_of_id sep c d w cloudType id hid]
  refine ⟨fun h => ?_, fun e h he => ?_⟩
  · rw [h]; rfl
  · rw [h]; simp only [he, if_false]

/-- Witness of C5: reading the stored identity of the sample account on a platform
where the account does not exist, and on a platform that is out of reach. -/
theorem readCloudAccount_get_error_witness :
    IdToTwoStrings ':' (storedTree false).Id = some ("aws", "123456789012") ∧
    (freshPlatform.Get startWorld.state "aws" "123456789012").1 =
      Except.error Error.ObjectNotFoundError ∧
    readCloudAccount ':' freshPlatform (storedTree false) startWorld =
      some ⟨none, { storedTree false with id := "" },
        ⟨(), [Call.Get "aws" "123456789012"]⟩⟩ ∧
    readCloudAccount ':' brokenPlatform (storedTree false) startWorld =
      some ⟨some (Error.other "timeout"), storedTree false,
        ⟨(), [Call.Get "aws" "123456789012"]⟩⟩ :=
  ⟨rfl, rfl,
    (readCloudAccount_get_error ':' freshPlatform (storedTree false) startWorld
      "aws" "123456789012" rfl).1 rfl,
    (readCloudAccount_get_error ':' brokenPlatform (storedTree false) startWorld
      "aws" "123456789012" rfl).2 (Error.other "timeout") rfl (by decide)⟩

/-- C6: `gcpCredentialsMatch` returns true exactly when both texts are decoded
by `json.Unmarshal` without error and the ten fields of the two decoded records
are pairwise equal, whatever the key and the resource data; so it returns false
as soon as one of the texts fails to parse. Key order does not count: two texts
that are objects with the same members in another order, no field named twice,
match when they decode without error. Neither does whitespace: two object texts
that hold the same string members, in any order and with any whitespace between
the tokens, match. -/
theorem gcpCredentialsMatch_iff (k old new : String) (d : ResourceData) :
    (gcpCredentialsMatch k old new d = true ↔
      ∃ prev cur : GcpCredentials,
        Unmarshal old GcpCredentials.zero = (prev, none) ∧
        Unmarshal new GcpCredentials.zero = (cur, none) ∧
        prev.Typ = cur.Typ ∧ prev.ProjectId = cur.ProjectId ∧
        prev.PrivateKeyId = cur.PrivateKeyId ∧ prev.PrivateKey = cur.PrivateKey ∧
        prev.ClientEmail = cur.ClientEmail ∧ prev.ClientId = cur.ClientId ∧
        prev.AuthUri = cur.AuthUri ∧ prev.TokenUri = cur.TokenUri ∧
        prev.ProviderCertUrl = cur.ProviderCertUrl ∧
        prev.ClientCertUrl = cur.ClientCertUrl) ∧
    ((Unmarshal old GcpCredentials.zero).2 ≠ none ∨
        (Unmarshal new GcpCredentials.zero).2 ≠ none →
      gcpCredentialsMatch k old new d = false) ∧
    (∀ ms1 ms2 : List (List Char × Json),
      parse old.data = some (Json.obj ms1) → parse new.data = some (Json.obj ms2) →
      ms1.Perm ms2 → (ms1.filterMap fun m => fieldIndex m.1).Nodup →
      (Unmarshal old GcpCredentials.zero).2 = none →
      gcpCredentialsMatch k old new d = true) ∧
    (∀ (lead1 trail1 lead2 trail2 : List Char) (ms1 ms2 : List SpacedMember),
      lead1.all isWs = true → trail1.all isWs = true →
      lead2.all isWs = true → trail2.all isWs = true →
      (∀ m ∈ ms1, m.wsOk = true) → (∀ m ∈ ms2, m.wsOk = true) →
      (ms1.map fun m => (m.key, m.value)).Perm (ms2.map fun m => (m.key, m.value)) →
      (ms1.filterMap fun m => fieldIndex m.key.data).Nodup →
      gcpCredentialsMatch k (objectText lead1 ms1 trail1) (objectText lead2 ms2 trail2) d =
        true) := by
  refine ⟨?_, ?_, ?_, ?_⟩
  · unfold gcpCredentialsMatch
    rcases h1 : Unmarshal old GcpCredentials.zero with ⟨prev, e1⟩
    rcases h2 : Unmarshal new GcpCredentials.zero with ⟨cur, e2⟩
    cases e1 with
    | some e => simp
    | none =>
      cases e2 with
      | some e => simp
      | none =>
        simp only [Bool.and_eq_true, beq_iff_eq, Prod.mk.injEq, and_true, exists_eq_left,
          exists_eq_left', and_assoc]
        constructor
        · intro h; exact ⟨prev, cur, rfl, rfl, h⟩
        · rintro ⟨p, c, rfl, rfl, h⟩; exact h
  · unfold gcpCredentialsMatch
    rcases h1 : Unmarshal old GcpCredentials.zero with ⟨prev, e1⟩
    rcases h2 : Unmarshal new GcpCredentials.zero with ⟨cur, e2⟩
    cases e1 with
    | some e => simp
    | none =>
      cases e2 with
      | some e => simp
      | none => simp
  · intro ms1 ms2 h1 h2 hp hnd he
    exact gcpCredentialsMatch_perm k old new d ms1 ms2 h1 h2 hp hnd he
  · intro lead1 trail1 lead2 trail2 ms1 ms2 hl1 ht1 hl2 ht2 hws1 hws2 hp hnd
    exact gcpCredentialsMatch_objectText k d lead1 trail1 lead2 trail2 ms1 ms2 hl1 ht1 hl2 ht2
      hws1 hws2 hp hnd

/-- Witness of C6: the empty text matches nothing; an object with a member that
is not a credential field matches the same object with the members swapped; a
credentials text written over several lines matches the same members in the
other order on one line. -/
theorem gcpCredentialsMatch_iff_witness :
    gcpCredentialsMatch "gcp.0.credentials_json" ""
      "\x7b\"type\":\"a\"\x7d" emptyTree = false ∧
    gcpCredentialsMatch "gcp.0.credentials_json"
      "\x7b\"type\":\"a\",\"extra\":[1,2]\x7d"
      "\x7b\"extra\":[1,2],\"type\":\"a\"\x7d" emptyTree = true ∧
    objectText [] handWritten [] =
      "\x7b\n \"type\": \"service_account\",\n \"project_id\" : \"proj-1\"\n\x7d" ∧
    objectText [' '] reordered ['\n'] =
      " \x7b\"project_id\":\"proj-1\",\"type\":\"service_account\"\x7d\n" ∧
    gcpCredentialsMatch "gcp.0.credentials_json" (objectText [] handWritten [])
      (objectText [' '] reordered ['\n']) emptyTree = true :=
  ⟨(gcpCredentialsMatch_iff "gcp.0.credentials_json" ""
      "\x7b\"type\":\"a\"\x7d" emptyTree).2.1 (Or.inl (by decide)),
    (gcpCredentialsMatch_iff "gcp.0.credentials_json"
      "\x7b\"type\":\"a\",\"extra\":[1,2]\x7d"
      "\x7b\"extra\":[1,2],\"type\":\"a\"\x7d" emptyTree).2.2.1
      [("type".data, Json.str "a".data), ("extra".data, Json.arr [Json.num, Json.num])]
      [("extra".data, Json.arr [Json.num, Json.num]), ("type".data, Json.str "a".data)]
      rfl rfl (List.Perm.swap _ _ []) (by decide) (by decide),
    by decide, by decide,
    (gcpCredentialsMatch_iff "gcp.0.credentials_json" "" "" emptyTree).2.2.2
      [] [] [' '] ['\n'] handWritten reordered rfl rfl rfl rfl (by decide) (by decide)
      (List.Perm.swap _ _ []) (by decide)⟩

/-- Counterexample to C7: the empty text is not valid JSON, so it does not match
itself. -/
theorem gcpCredentialsMatch_empty_text :
    gcpCredentialsMatch "gcp.0.credentials_json" "" "" emptyTree = false := by
  decide

/-- C7, amended: `gcpCredentialsMatch(k, a, a, d)` is true exactly for the texts
`a` that `json.Unmarshal` decodes into the credentials record without error; on
those texts the comparison is reflexive, on every other text it is false. -/
theorem gcpCredentialsMatch_refl_iff (k a : String) (d : ResourceData) :
    gcpCredentialsMatch k a a d = true ↔ (Unmarshal a GcpCredentials.zero).2 = none := by
  unfold gcpCredentialsMatch
  rcases h : Unmarshal a GcpCredentials.zero with ⟨p, e⟩
  cases e with
  | some e => simp
  | none => simp

/-- C8: whatever the tree held before, after `saveCloudAccount` with a record of
one of the four kinds under its own cloud type, the block list of that cloud
type holds exactly one block, whose fields are the fields of the record, and the
block lists of the other three cloud types are empty. -/
theorem saveCloudAccount_slots (d : ResourceData) :
    (∀ v : Aws,
      (saveCloudAccount d TypeAws (Obj.aws v)).aws =
        [[("account_id", Value.str v.AccountId), ("enabled", Value.bool v.Enabled),
          ("external_id", Value.str v.ExternalId),
          ("group_ids", Value.list (v.GroupIds.map Value.str)),
          ("name", Value.str v.Name), ("role_arn", Value.str v.RoleArn),
          ("account_type", Value.str v.AccountType),
          ("protection_mode", Value.str v.ProtectionMode)]] ∧
      (saveCloudAccount d TypeAws (Obj.aws v)).azure = [] ∧
      (saveCloudAccount d TypeAws (Obj.aws v)).gcp = [] ∧
      (saveCloudAccount d TypeAws (Obj.aws v)).alibaba = []) ∧
    (∀ v : Azure,
      (saveCloudAccount d TypeAzure (Obj.azure v)).aws = [] ∧
      (saveCloudAccount d TypeAzure (Obj.azure v)).azure =
        [[("account_id", Value.str v.Account.AccountId),
          ("enabled", Value.bool v.Account.Enabled),
          ("group_ids", Value.list (v.Account.GroupIds.map Value.str)),
          ("name", Value.str v.Account.Name), ("client_id", Value.str v.ClientId),
          ("key", Value.str v.Key), ("monitor_flow_logs", Value.bool v.MonitorFlowLogs),
          ("tenant_id", Value.str v.TenantId),
          ("service_principal_id", Value.str v.ServicePrincipalId),
          ("account_type", Value.str v.Account.AccountType),
          ("protection_mode", Value.str v.Account.ProtectionMode)]] ∧
      (saveCloudAccount d TypeAzure (Obj.azure v)).gcp = [] ∧
      (saveCloudAccount d TypeAzure (Obj.azure v)).alibaba = []) ∧
    (∀ v : Gcp,
      (saveCloudAccount d TypeGcp (Obj.gcp v)).aws = [] ∧
      (saveCloudAccount d TypeGcp (Obj.gcp v)).azure = [] ∧
      (saveCloudAccount d TypeGcp (Obj.gcp v)).gcp =
        [[("account_id", Value.str v.Account.AccountId),
          ("enabled", Value.bool v.Account.Enabled),
          ("group_ids", Value.list (v.Account.GroupIds.map Value.str)),
          ("name", Value.str v.Account.Name),
          ("compression_enabled", Value.bool v.CompressionEnabled),
          ("dataflow_enabled_project", Value.str v.DataflowEnabledProject),
          ("flow_log_storage_bucket", Value.str v.FlowLogStorageBucket),
          ("credentials_json", Value.str (Marshal v.Credentials)),
          ("account_type", Value.str v.Account.AccountType),
          ("protection_mode", Value.str v.Account.ProtectionMode)]] ∧
      (saveCloudAccount d TypeGcp (Obj.gcp v)).alibaba = []) ∧
    (∀ v : Alibaba,
      (saveCloudAccount d TypeAlibaba (Obj.alibaba v)).aws = [] ∧
      (saveCloudAccount d TypeAlibaba (Obj.alibaba v)).azure = [] ∧
      (saveCloudAccount d TypeAlibaba (Obj.alibaba v)).gcp = [] ∧
      (saveCloudAccount d TypeAlibaba (Obj.alibaba v)).alibaba =
        [[("account_id", Value.str v.AccountId),
          ("group_ids", Value.list (v.GroupIds.map Value.str)),
          ("name", Value.str v.Name), ("ram_arn", Value.str v.RamArn),
          ("enabled", Value.bool v.Enabled)]]) := by
  refine ⟨fun v => ?_, fun v => ?_, fun v => ?_, fun v => ?_⟩
  · rw [save_aws]; exact ⟨rfl, rfl, rfl, rfl⟩
  · rw [save_azure]; exact ⟨rfl, rfl, rfl, rfl⟩
  · rw [save_gcp]; exact ⟨rfl, rfl, rfl, rfl⟩
  · rw [save_alibaba]; exact ⟨rfl, rfl, rfl, rfl⟩

/-- C10: for a cloud type and a platform id that do not contain the separator,
`IdToTwoStrings(TwoStringsToId(cloudType, id))` is `(cloudType, id)`. So the
read on a tree that stores `TwoStringsToId(cloudType, id)` calls the external
`Get` with exactly `(cloudType, id)`, and nothing else; and when `Create`
succeeds and `Identify` returns `id`, `createCloudAccount` issues `Create`,
`Identify(cloudType, name)` and then `Get(cloudType, id)`. -/
theorem idToTwoStrings_twoStringsToId (sep : Char) (cloudType id : String)
    (h1 : sep ∉ cloudType.data) (_h2 : sep ∉ id.data) :
    IdToTwoStrings sep (TwoStringsToId sep cloudType id) = some (cloudType, id) ∧
    (∀ {σ : Type} (c : Client σ) (d : ResourceData) (w : World σ),
      ∃ out : Outcome σ,
        readCloudAccount sep c (d.SetId (TwoStringsToId sep cloudType id)) w = some out ∧
        out.w.calls = w.calls ++ [Call.Get cloudType id]) ∧
    (∀ {σ : Type} (c : Client σ) (d : ResourceData) (w : World σ) (name : String) (obj : Obj),
      parseCloudAccount d = some (cloudType, name, obj) →
      (c.Create w.state obj).1 = none →
      (c.Identify (c.Create w.state obj).2 cloudType name).1 = Except.ok id →
      ∃ out : Outcome σ,
        createCloudAccount sep c d w = some out ∧
        out.w.calls =
          w.calls ++ [Call.Create obj, Call.Identify cloudType name, Call.Get cloudType id]) := by
  have hrt := idToTwoStrings_compose sep cloudType id h1
  have hread : ∀ {σ : Type} (c : Client σ) (d : ResourceData) (w : World σ),
      ∃ out : Outcome σ,
        readCloudAccount sep c (d.SetId (TwoStringsToId sep cloudType id)) w = some out ∧
        out.w.calls = w.calls ++ [Call.Get cloudType id] := by
    intro σ c d w
    rw [readCloudAccount_of_id sep c (d.SetId (TwoStringsToId sep cloudType id)) w
      cloudType id hrt]
    cases (c.Get w.state cloudType id).1 with
    | ok obj => exact ⟨_, rfl, rfl⟩
    | error e =>
      by_cases he : e = Error.ObjectNotFoundError
      · exact ⟨_, by simp only [he, if_true]; rfl, rfl⟩
      · exact ⟨_, by simp only [he, if_false]; rfl, rfl⟩
  refine ⟨hrt, hread, ?_⟩
  intro σ c d w name obj hp hc hi
  have hcreate : createCloudAccount sep c d w =
      readCloudAccount sep c (d.SetId (TwoStringsToId sep cloudType id))
        ⟨(c.Identify (c.Create w.state obj).2 cloudType name).2,
          w.calls ++ [Call.Create obj, Call.Identify cloudType name]⟩ := by
    unfold createCloudAccount
    rw [hp]
    simp only [World.Create, hc, createCloudAccountIdentify, World.Identify, hi,
      List.append_assoc, List.cons_append, List.nil_append]
  obtain ⟨out, ho, hcalls⟩ := hread c d
    ⟨(c.Identify (c.Create w.state obj).2 cloudType name).2,
      w.calls ++ [Call.Create obj, Call.Identify cloudType name]⟩
  refine ⟨out, hcreate.trans ho, ?_⟩
  rw [hcalls]
  simp only [List.append_assoc, List.cons_append, List.nil_append]

/-- Witness of C10: the identity of the sample AWS account with the separator `:`,
and the creation of that account on a platform where it does not exist yet. -/
theorem idToTwoStrings_twoStringsToId_witness :
    ':' ∉ "aws".data ∧ ':' ∉ "123456789012".data ∧
    IdToTwoStrings ':' (TwoStringsToId ':' "aws" "123456789012") =
      some ("aws", "123456789012") ∧
    ∃ out : Outcome Unit,
      createCloudAccount ':' freshPlatform (awsTree false) startWorld = some out ∧
      out.w.calls = [Call.Create (Obj.aws sampleAws), Call.Identify "aws" "prod",
        Call.Get "aws" "123456789012"] :=
  have hp : parseCloudAccount (awsTree false) = some ("aws", "prod", Obj.aws sampleAws) := by
    rw [parse_aws (awsTree false) _ [] rfl]
    rw [show awsOfBlock (saveCloudAccountVal (Obj.aws sampleAws)) = sampleAws from rfl]
    rfl
  ⟨by decide, by decide,
    (idToTwoStrings_twoStringsToId ':' "aws" "123456789012" (by decide) (by decide)).1,
    (idToTwoStrings_twoStringsToId ':' "aws" "123456789012" (by decide) (by decide)).2.2
      freshPlatform (awsTree false) startWorld "prod" (Obj.aws sampleAws) hp rfl rfl⟩

end PrismaCloud
